import Mathlib

/-!
Verification of the simplescraper request-orchestration engine
(src/simplescraper.py): rate limiter, exponential backoff, response cache,
header resolution, and the retrying request orchestrator.

The Python source is shallowly embedded: every stateful operation is a pure
Lean function with explicit state passing; random draws (jitter, randint,
random.choice), clock reads and the network transport are supplied by an
oracle record; `await`/`async` sequencing is plain sequencing; exceptions
are `Except`/explicit outcome values.  Time instants and durations are
rationals.  Python dicts whose only observed operations are lookup and
update are embedded as functions `String → Option _`.
-/

namespace SimpleScraper

/-- Time instants and durations (seconds), embedding Python floats/datetimes
at the level of exact arithmetic. -/
abbrev Q := ℚ

/-- Python values that appear as query-parameter values, request bodies and
JSON bodies in this code base: strings and integers.  `pyStr` is Python
`str()` on them. -/
inductive PyVal where
  | s (v : String)
  | i (v : Int)
deriving DecidableEq, Repr

/-- Python `str(v)`. -/
def pyStr : PyVal → String
  | .s v => v
  | .i v => toString v

/-- Python `","` `.join` over a list of strings (`str.join`). -/
def joinComma : List String → String
  | [] => ""
  | [x] => x
  | x :: xs => x ++ "," ++ joinComma xs

/-- Map update `m[k] = v` for a dict embedded as a lookup function. -/
def mupd {α : Type} (m : String → Option α) (k : String) (v : α) :
    String → Option α :=
  fun x => if x = k then some v else m x

/-- Header dicts, embedded as lookup functions (only lookup and update are
observed on them in the source). -/
abbrev Hdrs := String → Option String

/-- Dict item assignment `h[k] = v`. -/
def hset (h : Hdrs) (k v : String) : Hdrs :=
  fun x => if x = k then some v else h x

/-- Python `{**a, **b}` / `a.update(b)`: entries of `b` win on conflict. -/
def hupdate (a b : Hdrs) : Hdrs :=
  fun k => (b k).orElse (fun _ => a k)

/-- `DatePart` enum (src/simplescraper.py lines 36-43). -/
inductive DatePart where
  | second | minute | hour | day | week | month | year
deriving DecidableEq, Repr

/-- The number of seconds each `DatePart` denotes in
`RateLimiter.seconds_between_requests` (lines 135-148): the constants
1.0, 60.0, 3600.0, 86_400.0, 604_800.0, 2.628e6, 3.154e7. -/
def DatePart.unitSeconds : DatePart → Q
  | .second => 1
  | .minute => 60
  | .hour => 3600
  | .day => 86400
  | .week => 604800
  | .month => 2628000
  | .year => 31540000

/-- `RateLimit` (lines 46-87).  `get_route_path` is the optional route-key
function.  The structure is immutable: nothing in the embedded code (nor in
the source) mutates a `RateLimit` after construction. -/
structure RateLimit where
  max_req : Int
  per : DatePart
  rate_limit_per_route : Bool
  get_route_path : Option (String → String)
  range_req : Option (Int × Int)
  per_multiplier : Int

/-- `RateLimit.__init__` (lines 54-87): stores the fields, then raises
`ValueError` (here: `Except.error`) on each invalid combination, in source
order: non-positive `max_req`; `rate_limit_per_route` without
`get_route_path`; `range_req` out of order; non-positive `range_req` lower
bound. -/
def RateLimit.make (max_req : Int) (per : DatePart) (rate_limit_per_route : Bool)
    (get_route_path : Option (String → String)) (range_req : Option (Int × Int))
    (per_multipler : Int) : Except String RateLimit :=
  if max_req ≤ 0 then
    .error "max_req must be a positive number greater than zero"
  else if rate_limit_per_route && get_route_path.isNone then
    .error "Must specify get_route_path when rate_limit_per_route is True"
  else
    match range_req with
    | some (a, b) =>
        if a ≥ b then
          .error "When specifying range_req, first value must be smaller than the second value"
        else if a ≤ 0 then
          .error "range_req lower bound must be a positive number greater than zero"
        else
          .ok ⟨max_req, per, rate_limit_per_route, get_route_path, some (a, b), per_multipler⟩
    | none =>
        .ok ⟨max_req, per, rate_limit_per_route, get_route_path, none, per_multipler⟩

/-- Retry/backoff reasons (`reason: Union[int, str]` plus the exception-name
reasons produced in the `except` clause). -/
inductive Reason where
  | txt (v : String)
  | stat (v : Nat)
deriving DecidableEq, Repr

/-- The recognized transient transport error classes of the `except` clause
(lines 358-368) plus `other` for any other exception type. -/
inductive ErrKind where
  | clientError
  | clientOSError
  | clientConnectionError
  | clientPayloadError
  | clientConnectorError
  | serverDisconnectedError
  | timeoutError
  | connectionError
  | other (name : String)
deriving DecidableEq, Repr

/-- Membership of an exception type in the built-in tuple of retryable
transport errors (lines 358-368). -/
def ErrKind.builtinRetryable : ErrKind → Bool
  | .other _ => false
  | _ => true

/-- Python `type(exc).__name__` for an `ErrKind`. -/
def ErrKind.name : ErrKind → String
  | .clientError => "ClientError"
  | .clientOSError => "ClientOSError"
  | .clientConnectionError => "ClientConnectionError"
  | .clientPayloadError => "ClientPayloadError"
  | .clientConnectorError => "ClientConnectorError"
  | .serverDisconnectedError => "ServerDisconnectedError"
  | .timeoutError => "TimeoutError"
  | .connectionError => "ConnectionError"
  | .other n => n

/-- The exceptions that can propagate inside `Scraper.request.do_req`:
transport errors, `ImmediatelyStopStatusError` (line 32), and
`ResponseNotOkError` (line 28) carrying the exhaustion reason. -/
inductive Exc where
  | transportExc (k : ErrKind)
  | immediatelyStopStatus
  | responseNotOk (reason : Reason)
deriving DecidableEq, Repr

/-- Exception types, as compared by `type(exc) in ...` (exact class match). -/
inductive ExcType where
  | errKind (k : ErrKind)
  | immediatelyStopStatus
  | responseNotOk
deriving DecidableEq, Repr

/-- `type(exc)` of an exception value. -/
def Exc.type : Exc → ExcType
  | .transportExc k => .errKind k
  | .immediatelyStopStatus => .immediatelyStopStatus
  | .responseNotOk _ => .responseNotOk

/-- `type(exc).__name__`. -/
def Exc.name : Exc → String
  | .transportExc k => k.name
  | .immediatelyStopStatus => "ImmediatelyStopStatusError"
  | .responseNotOk _ => "ResponseNotOkError"

/-- The retry test of the `except` clause (lines 356-371):
`type(exc) in (built-in tuple) or retry_errors is not None and
type(exc) in retry_errors`. -/
def isRetryable (retry_errors : Option (List ExcType)) (e : Exc) : Bool :=
  (match e with
   | .transportExc k => k.builtinRetryable
   | _ => false)
  || (match retry_errors with
      | some l => l.contains e.type
      | none => false)

/-- `ExponentialBackoff` (lines 90-115): `backoff_seconds` is the current
delay, `backoffs` the `_backoffs` counter. -/
structure ExponentialBackoff where
  backoff_seconds : Int
  exponent : Nat
  max_backoffs : Nat
  backoffs : Nat
deriving DecidableEq, Repr

/-- `ExponentialBackoff.__init__` defaults: `initial_backoff=2`,
`exponent=2`, `max_backoffs=3`, `_backoffs=0`. -/
def ExponentialBackoff.init : ExponentialBackoff := ⟨2, 2, 3, 0⟩

/-- `ExponentialBackoff.backoff` (lines 104-115).  If
`_backoffs + 1 > max_backoffs`, raises `ResponseNotOkError(reason)`.
Otherwise sleeps `backoff_seconds + random.random()` seconds (the slept
duration is returned alongside the new state; `jitter` is the oracle's
`random.random()` draw), then squares the delay
(`backoff_seconds **= exponent`) and increments `_backoffs`. -/
def ExponentialBackoff.backoff (b : ExponentialBackoff) (jitter : Q)
    (reason : Reason) : Except Exc (ExponentialBackoff × Q) :=
  if b.backoffs + 1 > b.max_backoffs then
    .error (.responseNotOk reason)
  else
    .ok ({ b with backoff_seconds := b.backoff_seconds ^ b.exponent,
                  backoffs := b.backoffs + 1 },
         (b.backoff_seconds : Q) + jitter)

/-- `RateLimiter.seconds_between_requests` (lines 126-150):
`1.0 / (_max / (unit_seconds * per_multiplier))`, where `_max` is
`max_req`, or the fresh `random.randint(a, b)` draw (`draw`) when
`range_req` is set. -/
def seconds_between_requests (s : RateLimit) (draw : Int) : Q :=
  let m : Int :=
    match s.range_req with
    | some _ => draw
    | none => s.max_req
  1 / ((m : Q) / (s.per.unitSeconds * (s.per_multiplier : Q)))

/-- `RateLimiter.next_call` (lines 152-158): an unseen key is granted `now`
immediately; otherwise the last call time plus
`seconds_between_requests + random.random()` (the `jitter` draw). -/
def next_call (s : RateLimit) (last_calls : String → Option Q) (key : String)
    (now : Q) (draw : Int) (jitter : Q) : Q :=
  match last_calls key with
  | none => now
  | some t => t + (seconds_between_requests s draw + jitter)

/-- Models `urllib.parse.urlparse(url).netloc` for the URLs this code
handles: the text following the first `//`, up to the next `/`, `?` or `#`;
empty when the URL has no `//`. -/
def netlocChars : List Char → List Char
  | '/' :: '/' :: rest => rest.takeWhile fun c => !(c == '/' || c == '?' || c == '#')
  | _ :: rest => netlocChars rest
  | [] => []

/-- The host part of a URL; see `netlocChars`. -/
def netloc (url : String) : String :=
  String.mk (netlocChars url.data)

/-- The rate-limit key of `RateLimiter.request` (lines 163-167): the URL's
netloc, or `get_route_path(url)` when `rate_limit_per_route` is set
(`RateLimit.make` validation guarantees the function is present in that
case; the `getD` default is never consulted for validated settings). -/
def rlKey (s : RateLimit) (url : String) : String :=
  if s.rate_limit_per_route then (s.get_route_path.getD (fun _ => "")) url
  else netloc url

/-- `Scraper._hash_request` (lines 273-289): Python `hash` applied to
`url + ",".join(str(v) for v in params.values()) + str(data) +
str(json_body)` (each part empty when the argument is `None`).  The
embedding keeps the hashed string itself as the fingerprint: equal strings
hash equal in Python, so every fingerprint equality proved here holds of
the source. -/
def hash_request (url : String) (params : Option (List (String × PyVal)))
    (data : Option PyVal) (json_body : Option PyVal) : String :=
  url
    ++ (match params with
        | some ps => joinComma (ps.map fun p => pyStr p.2)
        | none => "")
    ++ (match data with
        | some d => pyStr d
        | none => "")
    ++ (match json_body with
        | some j => pyStr j
        | none => "")

/-- The spoofed-identity state of a `Scraper`: `__cached_headers` and
`__next_headers` (lines 190, 194). -/
structure SpoofSt where
  cached_headers : Option Hdrs
  next_headers : Q

/-- `Scraper.__SPOOF_HEADER_LIFETIME_MINUTES` (line 188). -/
def spoofHeaderLifetimeMinutes : Nat := 60

/-- The fixed fields written over a freshly generated header set in
`Scraper._get_headers` (lines 247-262): the randomly chosen referer
(`referer` is the oracle's `random.choice` draw) and the fixed
Accept-Encoding / Accept-Language / Accept values. -/
def freshHeaders (gen : Hdrs) (referer : String) : Hdrs :=
  hset (hset (hset (hset gen "Referer" referer)
      "Accept-Encoding" "gzip, deflate, br")
      "Accept-Language" "en-US,en;q=0.9,ja;q=0.8")
      "Accept"
      "text/html,application/xhtml+xml,application/xml;q=0.9,image/avif,image/webp,*/*;q=0.8"

/-- `Scraper._get_headers` (lines 245-271): regenerate when no profile is
cached or the TTL expired (`now > next_headers`), setting the next expiry
60 minutes ahead; otherwise return the cached profile unchanged.  `gen` is
the oracle's `Headers().generate()` output. -/
def get_headers (st : SpoofSt) (now : Q) (gen : Hdrs) (referer : String) :
    Hdrs × SpoofSt :=
  match st.cached_headers with
  | none =>
      let h := freshHeaders gen referer
      (h, ⟨some h, now + 60 * (spoofHeaderLifetimeMinutes : Q)⟩)
  | some h0 =>
      if now > st.next_headers then
        let h := freshHeaders gen referer
        (h, ⟨some h, now + 60 * (spoofHeaderLifetimeMinutes : Q)⟩)
      else (h0, st)

/-- Header resolution in `Scraper.request` (lines 309-317):
with no explicit headers, defaults (or the spoofed identity when spoofing);
with explicit headers and spoofing on, `{**default, **explicit}` then
`.update(spoofed)`; with explicit headers and spoofing off, the explicit
headers unchanged. -/
def resolveHeaders (default_headers : Hdrs) (spoof : Bool)
    (explicit : Option Hdrs) (sst : SpoofSt) (now : Q) (gen : Hdrs)
    (referer : String) : Hdrs × SpoofSt :=
  match explicit with
  | none =>
      if spoof then get_headers sst now gen referer
      else (default_headers, sst)
  | some h =>
      if spoof then
        let merged := hupdate default_headers h
        let gh := get_headers sst now gen referer
        (hupdate merged gh.1, gh.2)
      else (h, sst)

/-- A direct-transport (aiohttp) dispatch result: an HTTP response with its
status, its `text()` body, and the value `res.json()` returns when called
(`none` embeds Python `None`, e.g. a `null` JSON body) — or a raised
exception of class `k`. -/
inductive TransportResult where
  | resp (status : Nat) (text : String) (jsonVal : Option PyVal)
  | raised (k : ErrKind)

/-- Observable events of one `Scraper.request` call, in order: a transport
dispatch (attempt number, plus the method, URL and resolved headers handed
to the transport), a backoff sleep, a rate-limit sleep, the rate limiter
stamping `_last_calls[key]`, a cache store and a cache hit. -/
inductive Event where
  | dispatch (n : Nat) (method : String) (url : String) (hdrs : Hdrs)
  | backoffSleep (seconds : Q)
  | rateSleep (seconds : Q)
  | stamp (key : String) (t : Q)
  | cacheStore (fp : String) (v : PyVal)
  | cacheHit (fp : String)

/-- Is the event a transport dispatch? -/
def Event.isDispatch : Event → Bool
  | .dispatch .. => true
  | _ => false

/-- Is the event a backoff sleep? -/
def Event.isBackoffSleep : Event → Bool
  | .backoffSleep _ => true
  | _ => false

/-- Is the event a rate-limit sleep? -/
def Event.isRateSleep : Event → Bool
  | .rateSleep _ => true
  | _ => false

/-- Is the event a `_last_calls` stamp? -/
def Event.isStamp : Event → Bool
  | .stamp .. => true
  | _ => false

/-- Is the event a cache store? -/
def Event.isCacheStore : Event → Bool
  | .cacheStore .. => true
  | _ => false

/-- Is the event a cache hit? -/
def Event.isCacheHit : Event → Bool
  | .cacheHit _ => true
  | _ => false

/-- The per-instance configuration of a `Scraper` (lines 206-231) that the
request path reads. -/
structure ScraperCfg where
  spoof_headers : Bool
  immediately_stop_statuses : List Nat
  default_headers : Hdrs
  limit : RateLimit
  use_playwright : Bool

/-- The oracle supplying every external effect of one `Scraper.request`
call: the direct transport result of the n-th dispatch; the playwright
result of the n-th dispatch; the `random.random()` draw of the n-th backoff
sleep; the `random.randint` draw and `random.random()` jitter used by the
rate limiter; the clock reads (`now` at slot computation, `stampTime` when
stamping, `headersNow` inside `_get_headers`); and the generated header set
and referer choice of `_get_headers`. -/
structure ScraperOracle where
  transport : Nat → TransportResult
  pw : Nat → Except ErrKind PyVal
  backoffJitter : Nat → Q
  rateDraw : Int
  rateJitter : Q
  now : Q
  stampTime : Q
  headersNow : Q
  genHeaders : Hdrs
  referer : String

/-- The mutable state of a `Scraper` instance observed by `request`:
`__cached_responses`, the rate limiter's `_last_calls`, and the spoofed
identity state. -/
structure ScraperSt where
  cache : String → Option PyVal
  last_calls : String → Option Q
  spoof : SpoofSt

/-- The state threaded through `do_req`: the response cache, the event
trace, the dispatch and backoff-draw counters, and the shared
`ExponentialBackoff` instance. -/
structure ReqSt where
  cache : String → Option PyVal
  trace : List Event
  nDispatch : Nat
  nBackoff : Nat
  backoff : ExponentialBackoff

/-- The outcome of `do_req`: a returned value, a propagated exception, or
fuel exhaustion of the embedding (never reached from `Scraper.request`,
whose fuel covers every possible retry chain). -/
inductive ReqOutcome where
  | ok (v : PyVal)
  | err (e : Exc)
  | outOfFuel
deriving DecidableEq, Repr

/-- `Scraper.request.do_req` (lines 321-375), with recursion depth bounded
by explicit fuel (each recursive re-dispatch consumes one unit; the retry
count is bounded by `max_backoffs`, so `max_backoffs + 1` fuel suffices).

One frame: dispatch through playwright or aiohttp; non-200 statuses either
abort with `ImmediatelyStopStatusError` (when in the immediate-stop set) or
back off with reason `text or res.status` and re-dispatch; a 200 response
parses `res.json()` when `json` else `res.text()`, backs off and
re-dispatches on a `None` value, and otherwise stores the value in the
response cache (unconditionally — `no_cache` is not consulted here) and
returns it.  The surrounding `except` clause retries recognized transient
errors (and caller-listed types) through the same shared backoff, and
re-raises anything else. -/
def doReq (cfg : ScraperCfg) (orc : ScraperOracle) (method url : String)
    (hdrs : Hdrs) (json : Bool) (retry_errors : Option (List ExcType))
    (req_hash : String) : Nat → ReqSt → ReqOutcome × ReqSt
  | 0, st => (.outOfFuel, st)
  | fuel + 1, st =>
    let n := st.nDispatch
    let st1 : ReqSt :=
      { st with nDispatch := n + 1,
                trace := st.trace ++ [.dispatch n method url hdrs] }
    let tryResult : ReqOutcome × ReqSt :=
      if cfg.use_playwright then
        match orc.pw n with
        | .ok v => (.ok v, st1)
        | .error k => (.err (.transportExc k), st1)
      else
        match orc.transport n with
        | .raised k => (.err (.transportExc k), st1)
        | .resp status text jsonVal =>
          if status ≠ 200 then
            if status ∈ cfg.immediately_stop_statuses then
              (.err .immediatelyStopStatus, st1)
            else
              match st1.backoff.backoff (orc.backoffJitter st1.nBackoff)
                  (if text = "" then .stat status else .txt text) with
              | .error e => (.err e, st1)
              | .ok (b2, sl) =>
                doReq cfg orc method url hdrs json retry_errors req_hash fuel
                  { st1 with backoff := b2, nBackoff := st1.nBackoff + 1,
                             trace := st1.trace ++ [.backoffSleep sl] }
          else
            match (if json then jsonVal else some (.s text)) with
            | some v =>
              (.ok v, { st1 with cache := mupd st1.cache req_hash v,
                                 trace := st1.trace ++ [.cacheStore req_hash v] })
            | none =>
              match st1.backoff.backoff (orc.backoffJitter st1.nBackoff)
                  (.txt "Empty response") with
              | .error e => (.err e, st1)
              | .ok (b2, sl) =>
                doReq cfg orc method url hdrs json retry_errors req_hash fuel
                  { st1 with backoff := b2, nBackoff := st1.nBackoff + 1,
                             trace := st1.trace ++ [.backoffSleep sl] }
    match tryResult with
    | (.err e, st2) =>
      if isRetryable retry_errors e then
        match st2.backoff.backoff (orc.backoffJitter st2.nBackoff)
            (.txt e.name) with
        | .error e2 => (.err e2, st2)
        | .ok (b2, sl) =>
          doReq cfg orc method url hdrs json retry_errors req_hash fuel
            { st2 with backoff := b2, nBackoff := st2.nBackoff + 1,
                       trace := st2.trace ++ [.backoffSleep sl] }
      else (.err e, st2)
    | r => r

/-- The cache-miss path of `Scraper.request` (lines 309-377): resolve the
headers, create the fresh `ExponentialBackoff`, then
`RateLimiter.request` (lines 160-184): compute the key and
`next_call`, sleep until the gate opens when it is in the future, stamp
`_last_calls[key]`, and run `do_req`.  The transport arguments `params`,
`data` and `json_body` reach only the transport (abstracted by the oracle)
and the fingerprint, which the caller passes in as `req_hash`. -/
def requestMiss (cfg : ScraperCfg) (orc : ScraperOracle) (method url : String)
    (headers : Option Hdrs) (json : Bool) (retry_errors : Option (List ExcType))
    (req_hash : String) (st : ScraperSt) : ReqOutcome × ScraperSt × List Event :=
  let rh := resolveHeaders cfg.default_headers cfg.spoof_headers headers
    st.spoof orc.headersNow orc.genHeaders orc.referer
  let key := rlKey cfg.limit url
  let utcnow := orc.now
  let nc := next_call cfg.limit st.last_calls key utcnow orc.rateDraw orc.rateJitter
  let rateEvts : List Event := if nc > utcnow then [.rateSleep (nc - utcnow)] else []
  let st0 : ReqSt :=
    ⟨st.cache, rateEvts ++ [.stamp key orc.stampTime], 0, 0, ExponentialBackoff.init⟩
  let out := doReq cfg orc method url rh.1 json retry_errors req_hash
    (ExponentialBackoff.init.max_backoffs + 1) st0
  (out.1, ⟨out.2.cache, mupd st.last_calls key orc.stampTime, rh.2⟩, out.2.trace)

/-- `Scraper.request` (lines 291-377): fingerprint the request; serve a
cached response when present and not bypassed (`no_cache`); otherwise run
the miss path.  Returns the outcome, the final scraper state, and the event
trace of the call. -/
def Scraper.request (cfg : ScraperCfg) (orc : ScraperOracle) (method url : String)
    (params : Option (List (String × PyVal))) (headers : Option Hdrs)
    (data : Option PyVal) (json : Bool) (retry_errors : Option (List ExcType))
    (json_body : Option PyVal) (no_cache : Bool) (st : ScraperSt) :
    ReqOutcome × ScraperSt × List Event :=
  let req_hash := hash_request url params data json_body
  match st.cache req_hash, no_cache with
  | some v, false => (.ok v, st, [.cacheHit req_hash])
  | _, _ => requestMiss cfg orc method url headers json retry_errors req_hash st

/-- `Scraper.get` (lines 379-398): delegates to `request` with method GET
and no body (`data` stays `None`). -/
def Scraper.get (cfg : ScraperCfg) (orc : ScraperOracle) (url : String)
    (params : Option (List (String × PyVal))) (headers : Option Hdrs)
    (json : Bool) (retry_errors : Option (List ExcType))
    (json_body : Option PyVal) (no_cache : Bool) (st : ScraperSt) :
    ReqOutcome × ScraperSt × List Event :=
  Scraper.request cfg orc "GET" url params headers none json retry_errors
    json_body no_cache st

/-- `Scraper.post` (lines 400-421): delegates to `request` with method POST
and a body. -/
def Scraper.post (cfg : ScraperCfg) (orc : ScraperOracle) (url : String)
    (params : Option (List (String × PyVal))) (headers : Option Hdrs)
    (data : Option PyVal) (json : Bool) (retry_errors : Option (List ExcType))
    (json_body : Option PyVal) (no_cache : Bool) (st : ScraperSt) :
    ReqOutcome × ScraperSt × List Event :=
  Scraper.request cfg orc "POST" url params headers data json retry_errors
    json_body no_cache st

/-! ### Component-level lemmas and claim theorems -/

/-- Every `DatePart` denotes a positive number of seconds. -/
theorem DatePart.unitSeconds_pos (p : DatePart) : 0 < p.unitSeconds := by
  cases p <;> norm_num [DatePart.unitSeconds]

/-- C5: an `ExponentialBackoff` with `max_backoffs = m` raises
`ResponseNotOkError` carrying the given reason exactly on invocations with
`attempts ≥ m`; every earlier invocation sleeps `delay + jitter`, squares
the delay (`delay ** exponent`), increments the counter and returns.  With
the defaults (`initial 2`, `exponent 2`, `max 3`) the delays of the chain
are 2, 4, 16, 256 and the 4th invocation raises instead of delaying. -/
theorem c5_backoff_exhaustion (b : ExponentialBackoff) (jitter : Q) (reason : Reason) :
    (b.max_backoffs ≤ b.backoffs →
      b.backoff jitter reason = .error (.responseNotOk reason)) ∧
    (b.backoffs < b.max_backoffs →
      b.backoff jitter reason =
        .ok ({ b with backoff_seconds := b.backoff_seconds ^ b.exponent,
                      backoffs := b.backoffs + 1 },
             (b.backoff_seconds : Q) + jitter)) ∧
    ExponentialBackoff.backoff ⟨2, 2, 3, 0⟩ jitter reason = .ok (⟨4, 2, 3, 1⟩, 2 + jitter) ∧
    ExponentialBackoff.backoff ⟨4, 2, 3, 1⟩ jitter reason = .ok (⟨16, 2, 3, 2⟩, 4 + jitter) ∧
    ExponentialBackoff.backoff ⟨16, 2, 3, 2⟩ jitter reason = .ok (⟨256, 2, 3, 3⟩, 16 + jitter) ∧
    ExponentialBackoff.backoff ⟨256, 2, 3, 3⟩ jitter reason = .error (.responseNotOk reason) := by
  refine ⟨fun h => ?_, fun h => ?_, ?_, ?_, ?_, ?_⟩
  · rw [ExponentialBackoff.backoff, if_pos (by omega)]
  · rw [ExponentialBackoff.backoff, if_neg (by omega)]
  all_goals simp [ExponentialBackoff.backoff]

/-- Witness for `c5_backoff_exhaustion`: with `max_backoffs = 3` and the
counter at 3, the next invocation raises exhaustion with the given reason. -/
theorem c5_backoff_exhaustion_witness :
    (3 : Nat) ≤ 3 ∧
    ExponentialBackoff.backoff ⟨256, 2, 3, 3⟩ 0 (.txt "boom") =
      .error (.responseNotOk (.txt "boom")) :=
  ⟨by decide, (c5_backoff_exhaustion ⟨256, 2, 3, 3⟩ 0 (.txt "boom")).1 (by decide)⟩

/-- C7: for a key with a recorded last call, the next permissible time is
`lastCallTime + interval + jitter` with
`interval = unit_seconds / (effectiveMax / per_multiplier)`, where
`effectiveMax` is `max_req`, or the fresh per-acquisition `randint` draw
when `range_req` is set; an unseen key is granted `now` with no jitter. -/
theorem c7_rate_limiter_next_call (s : RateLimit) (last_calls : String → Option Q)
    (key : String) (now : Q) (draw : Int) (jitter : Q) :
    (last_calls key = none → next_call s last_calls key now draw jitter = now) ∧
    (∀ t, last_calls key = some t → s.per_multiplier ≠ 0 →
      ((s.range_req = none → s.max_req ≠ 0 →
        next_call s last_calls key now draw jitter
          = t + s.per.unitSeconds / ((s.max_req : Q) / (s.per_multiplier : Q)) + jitter) ∧
       (s.range_req.isSome = true → draw ≠ 0 →
        next_call s last_calls key now draw jitter
          = t + s.per.unitSeconds / ((draw : Q) / (s.per_multiplier : Q)) + jitter))) := by
  constructor
  · intro h
    rw [next_call, h]
  · intro t h hm
    have hm' : (s.per_multiplier : Q) ≠ 0 := Int.cast_ne_zero.mpr hm
    have hu : s.per.unitSeconds ≠ 0 := ne_of_gt (DatePart.unitSeconds_pos s.per)
    constructor
    · intro hr hmax
      have hmax' : (s.max_req : Q) ≠ 0 := Int.cast_ne_zero.mpr hmax
      rw [next_call, h, seconds_between_requests, hr]
      field_simp
      ring
    · intro hr hd
      have hd' : (draw : Q) ≠ 0 := Int.cast_ne_zero.mpr hd
      rcases Option.isSome_iff_exists.mp hr with ⟨p, hp⟩
      rw [next_call, h, seconds_between_requests, hp]
      field_simp
      ring

/-- Witness for `c7_rate_limiter_next_call`: a key seen at time 10 under
1 request per minute (no random range, multiplier 1) must wait until
`10 + 60 / (1 / 1) + jitter` with jitter draw 1/2. -/
theorem c7_rate_limiter_next_call_witness :
    ((fun k => if k = "h" then some (10 : Q) else none) "h" = some (10 : Q)) ∧
    next_call ⟨1, .minute, false, none, none, 1⟩
        (fun k => if k = "h" then some (10 : Q) else none) "h" 0 1 (1 / 2)
      = 10 + DatePart.unitSeconds .minute / ((1 : Q) / (1 : Q)) + 1 / 2 :=
  ⟨by decide,
   ((c7_rate_limiter_next_call ⟨1, .minute, false, none, none, 1⟩
      (fun k => if k = "h" then some (10 : Q) else none) "h" 0 1 (1 / 2)).2
      10 (by decide) (by decide)).1 rfl (by decide)⟩

/-- C8: `RateLimit` construction succeeds exactly when `max_req` is
positive, a route function accompanies per-route limiting, and any
`range_req = (a, b)` satisfies `0 < a < b`; on success the stored
configuration equals the arguments (and, being a plain immutable record
that no operation of the embedding mutates, stays so thereafter). -/
theorem c8_rate_limit_validation (max_req : Int) (per : DatePart)
    (rate_limit_per_route : Bool) (get_route_path : Option (String → String))
    (range_req : Option (Int × Int)) (per_multipler : Int) :
    ((∃ rl, RateLimit.make max_req per rate_limit_per_route get_route_path
        range_req per_multipler = .ok rl) ↔
      (0 < max_req ∧
       (rate_limit_per_route = true → get_route_path.isSome = true) ∧
       (∀ a b, range_req = some (a, b) → 0 < a ∧ a < b))) ∧
    (∀ rl, RateLimit.make max_req per rate_limit_per_route get_route_path
        range_req per_multipler = .ok rl →
      rl.max_req = max_req ∧ rl.per = per ∧
      rl.rate_limit_per_route = rate_limit_per_route ∧
      rl.get_route_path = get_route_path ∧ rl.range_req = range_req ∧
      rl.per_multiplier = per_multipler) := by
  have hand : ∀ (r : Bool) (g : Option (String → String)),
      (r && g.isNone) = false ↔ (r = true → g.isSome = true) := by
    rintro r (_ | f) <;> cases r <;> simp
  rcases range_req with _ | ⟨a, b⟩
  · constructor
    · constructor
      · rintro ⟨rl, hrl⟩
        simp only [RateLimit.make] at hrl
        split_ifs at hrl with h1 h2
        exact ⟨by omega, (hand _ _).mp (Bool.eq_false_iff.mpr h2), by rintro x y ⟨⟩⟩
      · rintro ⟨h1, h2, -⟩
        simp only [RateLimit.make]
        rw [if_neg (by omega), if_neg (by simp [(hand _ _).mpr h2])]
        exact ⟨_, rfl⟩
    · intro rl hrl
      simp only [RateLimit.make] at hrl
      split_ifs at hrl with h1 h2
      injection hrl with hrl
      subst hrl
      exact ⟨rfl, rfl, rfl, rfl, rfl, rfl⟩
  · constructor
    · constructor
      · rintro ⟨rl, hrl⟩
        simp only [RateLimit.make] at hrl
        split_ifs at hrl with h1 h2 h3 h4
        refine ⟨by omega, (hand _ _).mp (Bool.eq_false_iff.mpr h2), ?_⟩
        rintro x y h
        obtain ⟨rfl, rfl⟩ : a = x ∧ b = y := by simpa using h
        exact ⟨by omega, by omega⟩
      · rintro ⟨h1, h2, h3⟩
        obtain ⟨ha, hb⟩ := h3 a b rfl
        simp only [RateLimit.make]
        rw [if_neg (by omega), if_neg (by simp [(hand _ _).mpr h2]),
          if_neg (by omega), if_neg (by omega)]
        exact ⟨_, rfl⟩
    · intro rl hrl
      simp only [RateLimit.make] at hrl
      split_ifs at hrl with h1 h2 h3 h4
      injection hrl with hrl
      subst hrl
      exact ⟨rfl, rfl, rfl, rfl, rfl, rfl⟩

/-- Witness for `c8_rate_limit_validation`: max 5 per minute with range
(1, 10) validates and round-trips its fields. -/
theorem c8_rate_limit_validation_witness :
    ∃ rl, RateLimit.make 5 .minute false none (some (1, 10)) 1 = .ok rl :=
  (c8_rate_limit_validation 5 .minute false none (some (1, 10)) 1).1.mpr
    (by refine ⟨by decide, by simp, ?_⟩
        rintro a b ⟨rfl, rfl⟩
        exact ⟨by decide, by decide⟩)

/-- The kinds of events `do_req` may append to the trace: dispatches with
exactly the resolved method, URL and headers; backoff sleeps; and cache
stores at the request's own fingerprint.  It never stamps the rate
limiter, sleeps on the rate-limit gate, or reports a cache hit. -/
def eventOkFor (method url : String) (hdrs : Hdrs) (req_hash : String) :
    Event → Prop
  | .dispatch _ m u h => m = method ∧ u = url ∧ h = hdrs
  | .backoffSleep _ => True
  | .cacheStore fp _ => fp = req_hash
  | .rateSleep _ => False
  | .stamp _ _ => False
  | .cacheHit _ => False

/-- The transport result `tr` is a 200 response whose parsed value
(`res.json()` when `json`, else `res.text()`) is `v` — in particular not
Python `None`. -/
def okBody (json : Bool) (tr : TransportResult) (v : PyVal) : Prop :=
  ∃ text jsonVal, tr = .resp 200 text jsonVal ∧
    (if json = true then jsonVal = some v else v = .s text)

/-- What one `do_req` run guarantees relative to its starting state: it
only appends `eventOkFor` events to the trace; it changes no cache entry
other than the request's own fingerprint; and when it does change that
entry it returns `.ok v` having stored exactly `v`, obtained from a 200
transport response with a non-`None` parsed value. -/
def ReqStep (orc : ScraperOracle) (method url : String) (hdrs : Hdrs)
    (json : Bool) (req_hash : String) (st : ReqSt)
    (out : ReqOutcome × ReqSt) : Prop :=
  (∃ Δ, out.2.trace = st.trace ++ Δ ∧
    ∀ e ∈ Δ, eventOkFor method url hdrs req_hash e) ∧
  (∀ fp, fp ≠ req_hash → out.2.cache fp = st.cache fp) ∧
  (out.2.cache req_hash = st.cache req_hash ∨
    ∃ v, out.1 = .ok v ∧ out.2.cache req_hash = some v ∧
      ∃ n, okBody json (orc.transport n) v)

/-- A step that appends events without touching the cache satisfies
`ReqStep` whatever its outcome. -/
theorem ReqStep.terminal {orc : ScraperOracle} {method url : String}
    {hdrs : Hdrs} {json : Bool} {req_hash : String} (st : ReqSt)
    (out : ReqOutcome × ReqSt) (Δ : List Event)
    (htr : out.2.trace = st.trace ++ Δ)
    (hΔ : ∀ e ∈ Δ, eventOkFor method url hdrs req_hash e)
    (hc : out.2.cache = st.cache) :
    ReqStep orc method url hdrs json req_hash st out :=
  ⟨⟨Δ, htr, hΔ⟩, fun _ _ => by rw [hc], Or.inl (by rw [hc])⟩

/-- `ReqStep` absorbs a cache-preserving, event-appending prefix. -/
theorem ReqStep.pre {orc : ScraperOracle} {method url : String} {hdrs : Hdrs}
    {json : Bool} {req_hash : String} (st stM : ReqSt)
    (out : ReqOutcome × ReqSt) (Δ0 : List Event)
    (htr : stM.trace = st.trace ++ Δ0)
    (hΔ0 : ∀ e ∈ Δ0, eventOkFor method url hdrs req_hash e)
    (hc : stM.cache = st.cache)
    (h : ReqStep orc method url hdrs json req_hash stM out) :
    ReqStep orc method url hdrs json req_hash st out := by
  obtain ⟨⟨Δ, htr1, hΔ1⟩, h2, h3⟩ := h
  refine ⟨⟨Δ0 ++ Δ, by rw [htr1, htr, List.append_assoc], ?_⟩, ?_, ?_⟩
  · intro e he
    rcases List.mem_append.mp he with h | h
    · exact hΔ0 e h
    · exact hΔ1 e h
  · intro fp hfp
    rw [h2 fp hfp, hc]
  · rcases h3 with h3 | h3
    · exact Or.inl (by rw [h3, hc])
    · exact Or.inr h3

/-- The successful-store leaf of `do_req` satisfies `ReqStep`. -/
theorem ReqStep.storeLeaf {orc : ScraperOracle} {method url : String}
    {hdrs : Hdrs} {json : Bool} {req_hash : String} (st : ReqSt)
    (out : ReqOutcome × ReqSt) (v : PyVal) (n : Nat) (Δ : List Event)
    (hout : out.1 = .ok v)
    (htr : out.2.trace = st.trace ++ Δ)
    (hΔ : ∀ e ∈ Δ, eventOkFor method url hdrs req_hash e)
    (hc : out.2.cache = mupd st.cache req_hash v)
    (hok : okBody json (orc.transport n) v) :
    ReqStep orc method url hdrs json req_hash st out := by
  refine ⟨⟨Δ, htr, hΔ⟩, ?_, Or.inr ⟨v, hout, ?_, n, hok⟩⟩
  · intro fp hfp
    rw [hc, mupd]
    simp [hfp]
  · rw [hc, mupd]
    simp

/-- A failed step leaves the whole cache unchanged. -/
theorem ReqStep.err_cache_eq {orc : ScraperOracle} {method url : String}
    {hdrs : Hdrs} {json : Bool} {req_hash : String} {st st2 : ReqSt} {e : Exc}
    (h : ReqStep orc method url hdrs json req_hash st (.err e, st2)) :
    st2.cache = st.cache := by
  obtain ⟨-, h2, h3⟩ := h
  funext fp
  by_cases hfp : fp = req_hash
  · subst hfp
    rcases h3 with h3 | ⟨v, hv, -⟩
    · exact h3
    · exact absurd hv (by simp)
  · exact h2 fp hfp

/-- A failed step stays a valid step when its exception is replaced (the
`except` clause re-raising a different terminal error). -/
theorem ReqStep.errSwap {orc : ScraperOracle} {method url : String}
    {hdrs : Hdrs} {json : Bool} {req_hash : String} {st st2 : ReqSt}
    {e : Exc} (e2 : Exc)
    (h : ReqStep orc method url hdrs json req_hash st (.err e, st2)) :
    ReqStep orc method url hdrs json req_hash st (.err e2, st2) := by
  obtain ⟨h1, h2, h3⟩ := h
  refine ⟨h1, h2, ?_⟩
  rcases h3 with h3 | ⟨v, hv, -⟩
  · exact Or.inl h3
  · exact absurd hv (by simp)

/-- The `except` clause of `do_req` — retry through the shared backoff when
the exception type is recognized or caller-listed, re-raise otherwise —
preserves `ReqStep` relative to the frame's starting state. -/
theorem ReqStep.exceptStep (cfg : ScraperCfg) (orc : ScraperOracle)
    (method url : String) (hdrs : Hdrs) (json : Bool)
    (retry_errors : Option (List ExcType)) (req_hash : String)
    (st stM : ReqSt) (E : Exc) (fuel : Nat) (Δ0 : List Event)
    (htr : stM.trace = st.trace ++ Δ0)
    (hΔ0 : ∀ e ∈ Δ0, eventOkFor method url hdrs req_hash e)
    (hc : stM.cache = st.cache)
    (ih : ∀ s, ReqStep orc method url hdrs json req_hash s
      (doReq cfg orc method url hdrs json retry_errors req_hash fuel s)) :
    ReqStep orc method url hdrs json req_hash st
      (if isRetryable retry_errors E = true then
        match ExponentialBackoff.backoff stM.backoff
            (orc.backoffJitter stM.nBackoff) (.txt E.name) with
        | .error e2 => (.err e2, stM)
        | .ok (b2, sl) =>
          doReq cfg orc method url hdrs json retry_errors req_hash fuel
            { stM with backoff := b2, nBackoff := stM.nBackoff + 1,
                       trace := stM.trace ++ [.backoffSleep sl] }
      else (.err E, stM)) := by
  cases hr : isRetryable retry_errors E with
  | false =>
    rw [if_neg Bool.false_ne_true]
    exact ReqStep.terminal st _ Δ0 htr hΔ0 hc
  | true =>
    rw [if_pos rfl]
    cases hb : ExponentialBackoff.backoff stM.backoff
        (orc.backoffJitter stM.nBackoff) (.txt E.name) with
    | error e2 =>
      exact ReqStep.terminal st _ Δ0 htr hΔ0 hc
    | ok p =>
      obtain ⟨b2, sl⟩ := p
      refine ReqStep.pre st
        { stM with backoff := b2, nBackoff := stM.nBackoff + 1,
                   trace := stM.trace ++ [.backoffSleep sl] }
        _ (Δ0 ++ [.backoffSleep sl]) (by simp [htr]) ?_ hc (ih _)
      intro e he
      rcases List.mem_append.mp he with h | h
      · exact hΔ0 e h
      · simp only [List.mem_singleton] at h
        subst h
        trivial

/-- The `except` clause wrapped around a completed inner `do_req` call
(whose errors bubble through the outer frame's handler) preserves
`ReqStep`. -/
theorem ReqStep.exceptWrap (cfg : ScraperCfg) (orc : ScraperOracle)
    (method url : String) (hdrs : Hdrs) (json : Bool)
    (retry_errors : Option (List ExcType)) (req_hash : String)
    (st stM : ReqSt) (fuel : Nat) (Δ0 : List Event)
    (htr : stM.trace = st.trace ++ Δ0)
    (hΔ0 : ∀ e ∈ Δ0, eventOkFor method url hdrs req_hash e)
    (hc : stM.cache = st.cache)
    (ih : ∀ s, ReqStep orc method url hdrs json req_hash s
      (doReq cfg orc method url hdrs json retry_errors req_hash fuel s)) :
    ReqStep orc method url hdrs json req_hash st
      (match doReq cfg orc method url hdrs json retry_errors req_hash fuel stM with
       | (.err e, st2) =>
         if isRetryable retry_errors e = true then
           match ExponentialBackoff.backoff st2.backoff
               (orc.backoffJitter st2.nBackoff) (.txt e.name) with
           | .error e2 => (.err e2, st2)
           | .ok (b2, sl) =>
             doReq cfg orc method url hdrs json retry_errors req_hash fuel
               { st2 with backoff := b2, nBackoff := st2.nBackoff + 1,
                          trace := st2.trace ++ [.backoffSleep sl] }
         else (.err e, st2)
       | r => r) := by
  have h0 : ReqStep orc method url hdrs json req_hash st
      (doReq cfg orc method url hdrs json retry_errors req_hash fuel stM) :=
    ReqStep.pre st stM _ Δ0 htr hΔ0 hc (ih stM)
  rcases hdq : doReq cfg orc method url hdrs json retry_errors req_hash fuel stM
    with ⟨r, st2⟩
  rw [hdq] at h0
  cases r with
  | ok v => exact h0
  | outOfFuel => exact h0
  | err e =>
    dsimp only
    have hcc : st2.cache = st.cache := ReqStep.err_cache_eq h0
    cases hr : isRetryable retry_errors e with
    | false =>
      rw [if_neg Bool.false_ne_true]
      exact h0
    | true =>
      rw [if_pos rfl]
      cases hb : ExponentialBackoff.backoff st2.backoff
          (orc.backoffJitter st2.nBackoff) (.txt e.name) with
      | error e2 =>
        exact ReqStep.errSwap e2 h0
      | ok p =>
        obtain ⟨b2, sl⟩ := p
        obtain ⟨⟨Δ, hΔtr, hΔok⟩, -, -⟩ := h0
        have hΔtr2 : st2.trace = st.trace ++ Δ := hΔtr
        refine ReqStep.pre st
          { st2 with backoff := b2, nBackoff := st2.nBackoff + 1,
                     trace := st2.trace ++ [.backoffSleep sl] }
          _ (Δ ++ [.backoffSleep sl]) (by simp [hΔtr2]) ?_ hcc (ih _)
        intro x hx
        rcases List.mem_append.mp hx with h | h
        · exact hΔok x h
        · simp only [List.mem_singleton] at h
          subst h
          trivial

/-- Every `do_req` run satisfies `ReqStep`: it only dispatches (with the
fixed method, URL and headers), sleeps for backoff, and stores at its own
fingerprint; any cache change is a single store of the returned value
coming from a 200 response with a non-`None` parsed value. -/
theorem doReq_spec (cfg : ScraperCfg) (orc : ScraperOracle) (method url : String)
    (hdrs : Hdrs) (json : Bool) (retry_errors : Option (List ExcType))
    (req_hash : String) :
    ∀ (fuel : Nat) (st : ReqSt),
      ReqStep orc method url hdrs json req_hash st
        (doReq cfg orc method url hdrs json retry_errors req_hash fuel st) := by
  intro fuel
  induction fuel with
  | zero =>
    intro st
    simp only [doReq]
    exact ReqStep.terminal st _ [] (by simp) (by simp) rfl
  | succ fuel ih =>
    intro st
    simp only [doReq]
    cases hpw : cfg.use_playwright with
    | true =>
      cases hw : orc.pw st.nDispatch with
      | ok v =>
        try dsimp only
        rw [if_pos rfl]
        exact ReqStep.terminal st _ [.dispatch st.nDispatch method url hdrs]
          rfl (by simp [eventOkFor]) rfl
      | error k =>
        try dsimp only
        rw [if_pos rfl]
        exact ReqStep.exceptStep cfg orc method url hdrs json retry_errors
          req_hash st _ (.transportExc k) fuel
          [.dispatch st.nDispatch method url hdrs]
          rfl (by simp [eventOkFor]) rfl ih
    | false =>
      cases htr0 : orc.transport st.nDispatch with
      | raised k =>
        try dsimp only
        rw [if_neg Bool.false_ne_true]
        exact ReqStep.exceptStep cfg orc method url hdrs json retry_errors
          req_hash st _ (.transportExc k) fuel
          [.dispatch st.nDispatch method url hdrs]
          rfl (by simp [eventOkFor]) rfl ih
      | resp status text jv =>
        try dsimp only
        rw [if_neg Bool.false_ne_true]
        by_cases hs : status ≠ 200
        · rw [if_pos hs]
          by_cases hstop : status ∈ cfg.immediately_stop_statuses
          · rw [if_pos hstop]
            try dsimp only
            exact ReqStep.exceptStep cfg orc method url hdrs json retry_errors
              req_hash st _ .immediatelyStopStatus fuel
              [.dispatch st.nDispatch method url hdrs]
              rfl (by simp [eventOkFor]) rfl ih
          · rw [if_neg hstop]
            cases hb : ExponentialBackoff.backoff st.backoff
                (orc.backoffJitter st.nBackoff)
                (if text = "" then Reason.stat status else Reason.txt text) with
            | error e =>
              try dsimp only
              exact ReqStep.exceptStep cfg orc method url hdrs json retry_errors
                req_hash st _ e fuel
                [.dispatch st.nDispatch method url hdrs]
                rfl (by simp [eventOkFor]) rfl ih
            | ok p =>
              obtain ⟨b2, sl⟩ := p
              try dsimp only
              exact ReqStep.exceptWrap cfg orc method url hdrs json retry_errors
                req_hash st _ fuel
                [.dispatch st.nDispatch method url hdrs, .backoffSleep sl]
                (by simp) (by simp [eventOkFor]) rfl ih
        · rw [if_neg hs]
          have hs200 : status = 200 := not_ne_iff.mp hs
          cases json with
          | true =>
            cases jv with
            | some v =>
              try dsimp only
              rw [if_pos rfl]
              exact ReqStep.storeLeaf st _ v st.nDispatch
                [.dispatch st.nDispatch method url hdrs, .cacheStore req_hash v]
                rfl (by simp) (by simp [eventOkFor]) rfl
                ⟨text, some v, by rw [htr0, hs200], by simp⟩
            | none =>
              try dsimp only
              rw [if_pos rfl]
              cases hb : ExponentialBackoff.backoff st.backoff
                  (orc.backoffJitter st.nBackoff) (Reason.txt "Empty response") with
              | error e =>
                try dsimp only
                exact ReqStep.exceptStep cfg orc method url hdrs true retry_errors
                  req_hash st _ e fuel
                  [.dispatch st.nDispatch method url hdrs]
                  rfl (by simp [eventOkFor]) rfl ih
              | ok p =>
                obtain ⟨b2, sl⟩ := p
                try dsimp only
                exact ReqStep.exceptWrap cfg orc method url hdrs true retry_errors
                  req_hash st _ fuel
                  [.dispatch st.nDispatch method url hdrs, .backoffSleep sl]
                  (by simp) (by simp [eventOkFor]) rfl ih
          | false =>
            try dsimp only
            rw [if_neg Bool.false_ne_true]
            exact ReqStep.storeLeaf st _ (.s text) st.nDispatch
              [.dispatch st.nDispatch method url hdrs,
               .cacheStore req_hash (.s text)]
              rfl (by simp) (by simp [eventOkFor]) rfl
              ⟨text, jv, by rw [htr0, hs200], by simp⟩

/-- The `except` wrapper around a completed inner `do_req` call only
appends events to the inner call's final trace. -/
theorem exceptWrap_trace (cfg : ScraperCfg) (orc : ScraperOracle)
    (method url : String) (hdrs : Hdrs) (json : Bool)
    (retry_errors : Option (List ExcType)) (req_hash : String)
    (stM : ReqSt) (fuel : Nat) :
    ∃ Δ, ((match doReq cfg orc method url hdrs json retry_errors req_hash fuel stM with
       | (.err e, st2) =>
         if isRetryable retry_errors e = true then
           match ExponentialBackoff.backoff st2.backoff
               (orc.backoffJitter st2.nBackoff) (.txt e.name) with
           | .error e2 => (.err e2, st2)
           | .ok (b2, sl) =>
             doReq cfg orc method url hdrs json retry_errors req_hash fuel
               { st2 with backoff := b2, nBackoff := st2.nBackoff + 1,
                          trace := st2.trace ++ [.backoffSleep sl] }
         else (.err e, st2)
       | r => r : ReqOutcome × ReqSt)).2.trace
      = (doReq cfg orc method url hdrs json retry_errors req_hash fuel stM).2.trace ++ Δ := by
  rcases hdq : doReq cfg orc method url hdrs json retry_errors req_hash fuel stM
    with ⟨r, st2⟩
  cases r with
  | ok v => exact ⟨[], by simp⟩
  | outOfFuel => exact ⟨[], by simp⟩
  | err e =>
    dsimp only
    cases hr : isRetryable retry_errors e with
    | false =>
      rw [if_neg Bool.false_ne_true]
      exact ⟨[], by simp⟩
    | true =>
      rw [if_pos rfl]
      cases hb : ExponentialBackoff.backoff st2.backoff
          (orc.backoffJitter st2.nBackoff) (.txt e.name) with
      | error e2 => exact ⟨[], by simp⟩
      | ok p =>
        obtain ⟨b2, sl⟩ := p
        obtain ⟨⟨Δ, htr, -⟩, -, -⟩ :=
          doReq_spec cfg orc method url hdrs json retry_errors req_hash fuel
            { st2 with backoff := b2, nBackoff := st2.nBackoff + 1,
                       trace := st2.trace ++ [.backoffSleep sl] }
        refine ⟨.backoffSleep sl :: Δ, ?_⟩
        dsimp only
        rw [htr]
        simp

/-- Every `do_req` frame with fuel left begins by dispatching: the events
it appends start with the dispatch of attempt `st.nDispatch` carrying the
fixed method, URL and resolved headers. -/
theorem doReq_head (cfg : ScraperCfg) (orc : ScraperOracle) (method url : String)
    (hdrs : Hdrs) (json : Bool) (retry_errors : Option (List ExcType))
    (req_hash : String) (fuel : Nat) (st : ReqSt) :
    ∃ Δ, (doReq cfg orc method url hdrs json retry_errors req_hash (fuel + 1) st).2.trace
      = st.trace ++ Event.dispatch st.nDispatch method url hdrs :: Δ := by
  have ih := doReq_spec cfg orc method url hdrs json retry_errors req_hash fuel
  simp only [doReq]
  cases hpw : cfg.use_playwright with
  | true =>
    cases hw : orc.pw st.nDispatch with
    | ok v =>
      try dsimp only
      rw [if_pos rfl]
      exact ⟨[], by simp⟩
    | error k =>
      try dsimp only
      rw [if_pos rfl]
      obtain ⟨⟨Δ2, htr2, -⟩, -, -⟩ :=
        ReqStep.exceptStep cfg orc method url hdrs json retry_errors req_hash
          { st with nDispatch := st.nDispatch + 1,
                    trace := st.trace ++ [.dispatch st.nDispatch method url hdrs] }
          { st with nDispatch := st.nDispatch + 1,
                    trace := st.trace ++ [.dispatch st.nDispatch method url hdrs] }
          (.transportExc k) fuel [] (by simp) (by simp) rfl ih
      exact ⟨Δ2, htr2.trans (by simp)⟩
  | false =>
    cases htr0 : orc.transport st.nDispatch with
    | raised k =>
      try dsimp only
      rw [if_neg Bool.false_ne_true]
      obtain ⟨⟨Δ2, htr2, -⟩, -, -⟩ :=
        ReqStep.exceptStep cfg orc method url hdrs json retry_errors req_hash
          { st with nDispatch := st.nDispatch + 1,
                    trace := st.trace ++ [.dispatch st.nDispatch method url hdrs] }
          { st with nDispatch := st.nDispatch + 1,
                    trace := st.trace ++ [.dispatch st.nDispatch method url hdrs] }
          (.transportExc k) fuel [] (by simp) (by simp) rfl ih
      exact ⟨Δ2, htr2.trans (by simp)⟩
    | resp status text jv =>
      try dsimp only
      rw [if_neg Bool.false_ne_true]
      by_cases hs : status ≠ 200
      · rw [if_pos hs]
        by_cases hstop : status ∈ cfg.immediately_stop_statuses
        · rw [if_pos hstop]
          try dsimp only
          obtain ⟨⟨Δ2, htr2, -⟩, -, -⟩ :=
            ReqStep.exceptStep cfg orc method url hdrs json retry_errors req_hash
              { st with nDispatch := st.nDispatch + 1,
                        trace := st.trace ++ [.dispatch st.nDispatch method url hdrs] }
              { st with nDispatch := st.nDispatch + 1,
                        trace := st.trace ++ [.dispatch st.nDispatch method url hdrs] }
              .immediatelyStopStatus fuel [] (by simp) (by simp) rfl ih
          exact ⟨Δ2, htr2.trans (by simp)⟩
        · rw [if_neg hstop]
          cases hb : ExponentialBackoff.backoff st.backoff
              (orc.backoffJitter st.nBackoff)
              (if text = "" then Reason.stat status else Reason.txt text) with
          | error e =>
            try dsimp only
            obtain ⟨⟨Δ2, htr2, -⟩, -, -⟩ :=
              ReqStep.exceptStep cfg orc method url hdrs json retry_errors req_hash
                { st with nDispatch := st.nDispatch + 1,
                          trace := st.trace ++ [.dispatch st.nDispatch method url hdrs] }
                { st with nDispatch := st.nDispatch + 1,
                          trace := st.trace ++ [.dispatch st.nDispatch method url hdrs] }
                e fuel [] (by simp) (by simp) rfl ih
            exact ⟨Δ2, htr2.trans (by simp)⟩
          | ok p =>
            obtain ⟨b2, sl⟩ := p
            try dsimp only
            obtain ⟨⟨Δ2, htr2, -⟩, -, -⟩ :=
              ReqStep.exceptWrap cfg orc method url hdrs json retry_errors req_hash
                { st with nDispatch := st.nDispatch + 1,
                          trace := st.trace ++ [.dispatch st.nDispatch method url hdrs] }
                { st with nDispatch := st.nDispatch + 1, nBackoff := st.nBackoff + 1,
                          backoff := b2,
                          trace := st.trace ++ [.dispatch st.nDispatch method url hdrs]
                            ++ [.backoffSleep sl] }
                fuel [.backoffSleep sl] (by simp) (by simp [eventOkFor]) rfl ih
            exact ⟨Δ2, htr2.trans (by simp)⟩
      · rw [if_neg hs]
        cases json with
        | true =>
          cases jv with
          | some v =>
            try dsimp only
            rw [if_pos rfl]
            exact ⟨[.cacheStore req_hash v], by simp⟩
          | none =>
            try dsimp only
            rw [if_pos rfl]
            cases hb : ExponentialBackoff.backoff st.backoff
                (orc.backoffJitter st.nBackoff) (Reason.txt "Empty response") with
            | error e =>
              try dsimp only
              obtain ⟨⟨Δ2, htr2, -⟩, -, -⟩ :=
                ReqStep.exceptStep cfg orc method url hdrs true retry_errors req_hash
                  { st with nDispatch := st.nDispatch + 1,
                            trace := st.trace ++ [.dispatch st.nDispatch method url hdrs] }
                  { st with nDispatch := st.nDispatch + 1,
                            trace := st.trace ++ [.dispatch st.nDispatch method url hdrs] }
                  e fuel [] (by simp) (by simp) rfl ih
              exact ⟨Δ2, htr2.trans (by simp)⟩
            | ok p =>
              obtain ⟨b2, sl⟩ := p
              try dsimp only
              obtain ⟨⟨Δ2, htr2, -⟩, -, -⟩ :=
                ReqStep.exceptWrap cfg orc method url hdrs true retry_errors req_hash
                  { st with nDispatch := st.nDispatch + 1,
                            trace := st.trace ++ [.dispatch st.nDispatch method url hdrs] }
                  { st with nDispatch := st.nDispatch + 1, nBackoff := st.nBackoff + 1,
                            backoff := b2,
                            trace := st.trace ++ [.dispatch st.nDispatch method url hdrs]
                              ++ [.backoffSleep sl] }
                  fuel [.backoffSleep sl] (by simp) (by simp [eventOkFor]) rfl ih
              exact ⟨Δ2, htr2.trans (by simp)⟩
        | false =>
          try dsimp only
          rw [if_neg Bool.false_ne_true]
          exact ⟨[.cacheStore req_hash (.s text)], by simp⟩

/-- A dispatch whose transport response is a 200 with a non-`None` parsed
value succeeds immediately: the value is stored in the response cache
(keyed by the fingerprint, with no `no_cache` consultation) and returned;
no backoff and no retry happen in this frame. -/
theorem doReq_success (cfg : ScraperCfg) (orc : ScraperOracle) (method url : String)
    (hdrs : Hdrs) (json : Bool) (retry_errors : Option (List ExcType))
    (req_hash : String) (fuel : Nat) (st : ReqSt) (v : PyVal) (text : String)
    (jv : Option PyVal)
    (hpw : cfg.use_playwright = false)
    (htr0 : orc.transport st.nDispatch = .resp 200 text jv)
    (hjv : (if json = true then jv else some (.s text)) = some v) :
    doReq cfg orc method url hdrs json retry_errors req_hash (fuel + 1) st
      = (.ok v,
         ⟨mupd st.cache req_hash v,
          st.trace ++ [.dispatch st.nDispatch method url hdrs]
            ++ [.cacheStore req_hash v],
          st.nDispatch + 1, st.nBackoff, st.backoff⟩) := by
  simp only [doReq, hpw, htr0]
  rw [if_neg Bool.false_ne_true, if_neg (by simp : ¬((200 : Nat) ≠ 200))]
  try rw [hjv]

/-- A cached fingerprint with `no_cache` unset short-circuits the whole
request: the cached value is returned, the state is untouched, and the only
event is the cache hit — no header resolution, no rate-limit acquisition,
no stamp, no dispatch. -/
theorem request_hit (cfg : ScraperCfg) (orc : ScraperOracle) (method url : String)
    (params : Option (List (String × PyVal))) (headers : Option Hdrs)
    (data : Option PyVal) (json : Bool) (retry_errors : Option (List ExcType))
    (json_body : Option PyVal) (st : ScraperSt) (v : PyVal)
    (hhit : st.cache (hash_request url params data json_body) = some v) :
    Scraper.request cfg orc method url params headers data json retry_errors
        json_body false st
      = (.ok v, st, [.cacheHit (hash_request url params data json_body)]) := by
  simp only [Scraper.request, hhit]

/-- A missing fingerprint (or `no_cache`) routes the request to the miss
path. -/
theorem request_miss (cfg : ScraperCfg) (orc : ScraperOracle) (method url : String)
    (params : Option (List (String × PyVal))) (headers : Option Hdrs)
    (data : Option PyVal) (json : Bool) (retry_errors : Option (List ExcType))
    (json_body : Option PyVal) (no_cache : Bool) (st : ScraperSt)
    (h : st.cache (hash_request url params data json_body) = none ∨ no_cache = true) :
    Scraper.request cfg orc method url params headers data json retry_errors
        json_body no_cache st
      = requestMiss cfg orc method url headers json retry_errors
          (hash_request url params data json_body) st := by
  rcases h with h | h
  · simp only [Scraper.request, h]
  · subst h
    simp only [Scraper.request]
    cases hc : st.cache (hash_request url params data json_body) <;> rfl

/-- Events `do_req` appends are never cache hits, stamps, or rate-limit
sleeps. -/
theorem eventOkFor_admin {method url : String} {hdrs : Hdrs} {req_hash : String}
    {e : Event} (h : eventOkFor method url hdrs req_hash e) :
    e.isCacheHit = false ∧ e.isStamp = false ∧ e.isRateSleep = false := by
  cases e <;>
    simp_all [eventOkFor, Event.isCacheHit, Event.isStamp, Event.isRateSleep]

/-- The miss path under an immediately successful transport (200 with a
non-`None` parsed value at the first dispatch): returns the parsed value,
stores it at the fingerprint, stamps the rate-limit key, and sets the
spoof state from header resolution. -/
theorem requestMiss_success (cfg : ScraperCfg) (orc : ScraperOracle)
    (method url : String) (headers : Option Hdrs) (json : Bool)
    (retry_errors : Option (List ExcType)) (fp : String) (st : ScraperSt)
    (v : PyVal) (text : String) (jv : Option PyVal)
    (hpw : cfg.use_playwright = false)
    (htr0 : orc.transport 0 = .resp 200 text jv)
    (hjv : (if json = true then jv else some (.s text)) = some v) :
    (requestMiss cfg orc method url headers json retry_errors fp st).1 = .ok v ∧
    (requestMiss cfg orc method url headers json retry_errors fp st).2.1.cache
      = mupd st.cache fp v ∧
    (requestMiss cfg orc method url headers json retry_errors fp st).2.1.last_calls
      = mupd st.last_calls (rlKey cfg.limit url) orc.stampTime ∧
    (requestMiss cfg orc method url headers json retry_errors fp st).2.1.spoof
      = (resolveHeaders cfg.default_headers cfg.spoof_headers headers st.spoof
          orc.headersNow orc.genHeaders orc.referer).2 := by
  simp only [requestMiss]
  rw [doReq_success cfg orc method url
    (resolveHeaders cfg.default_headers cfg.spoof_headers headers st.spoof
      orc.headersNow orc.genHeaders orc.referer).1
    json retry_errors fp ExponentialBackoff.init.max_backoffs
    ⟨st.cache,
     (if next_call cfg.limit st.last_calls (rlKey cfg.limit url) orc.now
          orc.rateDraw orc.rateJitter > orc.now then
        [Event.rateSleep (next_call cfg.limit st.last_calls (rlKey cfg.limit url)
          orc.now orc.rateDraw orc.rateJitter - orc.now)]
      else []) ++ [Event.stamp (rlKey cfg.limit url) orc.stampTime],
     0, 0, ExponentialBackoff.init⟩
    v text jv hpw htr0 hjv]
  refine ⟨?_, ?_, ?_, ?_⟩ <;> first
    | rfl
    | trivial

/-- The miss path changes no cache entry besides the fingerprint, and a
change there is a store of the returned value from a 200 response with a
non-`None` parsed value. -/
theorem requestMiss_cache (cfg : ScraperCfg) (orc : ScraperOracle)
    (method url : String) (headers : Option Hdrs) (json : Bool)
    (retry_errors : Option (List ExcType)) (fp : String) (st : ScraperSt) :
    (∀ fp', fp' ≠ fp →
      (requestMiss cfg orc method url headers json retry_errors fp st).2.1.cache fp'
        = st.cache fp') ∧
    ((requestMiss cfg orc method url headers json retry_errors fp st).2.1.cache fp
        ≠ st.cache fp →
      ∃ v, (requestMiss cfg orc method url headers json retry_errors fp st).1 = .ok v ∧
        (requestMiss cfg orc method url headers json retry_errors fp st).2.1.cache fp
          = some v ∧
        ∃ n, okBody json (orc.transport n) v) := by
  obtain ⟨-, h2, h3⟩ :=
    doReq_spec cfg orc method url
      (resolveHeaders cfg.default_headers cfg.spoof_headers headers st.spoof
        orc.headersNow orc.genHeaders orc.referer).1
      json retry_errors fp (ExponentialBackoff.init.max_backoffs + 1)
      ⟨st.cache,
       (if next_call cfg.limit st.last_calls (rlKey cfg.limit url) orc.now
            orc.rateDraw orc.rateJitter > orc.now then
          [Event.rateSleep (next_call cfg.limit st.last_calls (rlKey cfg.limit url)
            orc.now orc.rateDraw orc.rateJitter - orc.now)]
        else []) ++ [Event.stamp (rlKey cfg.limit url) orc.stampTime],
       0, 0, ExponentialBackoff.init⟩
  constructor
  · intro fp' hfp
    exact h2 fp' hfp
  · intro hch
    rcases h3 with h3 | ⟨v, hv, hcv, n, hok⟩
    · exact absurd h3 hch
    · exact ⟨v, hv, hcv, n, hok⟩

/-- C4 counterexample: two requests that differ in `params` can share a
fingerprint, because parameter values are serialized by comma-joining: the
params `{a: "1", b: "2"}` and `{a: "1,2"}` hash identically, so after the
first is cached, a request with the second is served from the cache.  This
refutes the claim that changing `params` always changes the fingerprint
and misses. -/
theorem c4_fingerprint_counterexample :
    [("a", PyVal.s "1"), ("b", PyVal.s "2")] ≠ [("a", PyVal.s "1,2")] ∧
    hash_request "http://h/p" (some [("a", PyVal.s "1"), ("b", PyVal.s "2")]) none none
      = hash_request "http://h/p" (some [("a", PyVal.s "1,2")]) none none ∧
    (Scraper.request
      ⟨false, [], (fun _ => none), ⟨1, .second, false, none, none, 1⟩, false⟩
      ⟨(fun _ => .resp 200 "t" (some (.s "v"))), (fun _ => .ok (.s "pw")),
       (fun _ => 0), 1, 0, 0, 0, 0, (fun _ => none), "r"⟩
      "GET" "http://h/p" (some [("a", PyVal.s "1,2")]) none none true none none false
      ⟨mupd (fun _ => none)
        (hash_request "http://h/p" (some [("a", PyVal.s "1"), ("b", PyVal.s "2")]) none none)
        (.s "w"),
       (fun _ => none), ⟨none, 0⟩⟩).1 = .ok (.s "w") := by
  refine ⟨by decide, by decide, ?_⟩
  decide

/-- A scraper configuration used by the concrete counterexamples and
witnesses: no spoofing, no immediate-stop statuses, no default headers,
1 request per second, direct (aiohttp) transport. -/
def cfgA : ScraperCfg :=
  ⟨false, [], (fun _ => none), ⟨1, .second, false, none, none, 1⟩, false⟩

/-- An oracle whose transport always answers 200 with text `"t"` and JSON
value `"v"`, with all random draws and clock reads at fixed small values. -/
def orcA : ScraperOracle :=
  ⟨(fun _ => .resp 200 "t" (some (.s "v"))), (fun _ => .ok (.s "pw")),
   (fun _ => 0), 1, 0, 0, 0, 0, (fun _ => none), "r"⟩

/-- The fresh scraper state: empty cache, no last calls, no cached spoof
profile. -/
def stA : ScraperSt := ⟨(fun _ => none), (fun _ => none), ⟨none, 0⟩⟩

/-- C4 (amended): a cached fingerprint is served back unchanged — the
request returns the stored value, mutates nothing, and emits only the
cache-hit event (so neither the transport nor the rate limiter runs); and
the fingerprint depends on `params` only through the comma-joined
serialization of its values, so two params lists with equal serializations
share a fingerprint (the collision exhibited by the counterexample). -/
theorem c4_cache_roundtrip_amended (cfg : ScraperCfg) (orc : ScraperOracle)
    (method url : String) (params : Option (List (String × PyVal)))
    (headers : Option Hdrs) (data : Option PyVal) (json : Bool)
    (retry_errors : Option (List ExcType)) (json_body : Option PyVal)
    (st : ScraperSt) (v : PyVal)
    (hhit : st.cache (hash_request url params data json_body) = some v) :
    Scraper.request cfg orc method url params headers data json retry_errors
        json_body false st
      = (.ok v, st, [.cacheHit (hash_request url params data json_body)]) ∧
    (∀ (u : String) (p p' : List (String × PyVal)) (d j : Option PyVal),
      joinComma (p.map fun x => pyStr x.2)
        = joinComma (p'.map fun x => pyStr x.2) →
      hash_request u (some p) d j = hash_request u (some p') d j) := by
  constructor
  · exact request_hit cfg orc method url params headers data json retry_errors
      json_body st v hhit
  · intro u p p' d j h
    simp only [hash_request, h]

/-- Witness for `c4_cache_roundtrip_amended` at a concrete cached state. -/
theorem c4_cache_roundtrip_amended_witness :
    (⟨mupd (fun _ => none) (hash_request "http://h/p" none none none) (.s "w"),
      (fun _ => none), ⟨none, 0⟩⟩ : ScraperSt).cache
        (hash_request "http://h/p" none none none) = some (.s "w") ∧
    Scraper.request cfgA orcA "GET" "http://h/p" none none none true none none false
        ⟨mupd (fun _ => none) (hash_request "http://h/p" none none none) (.s "w"),
         (fun _ => none), ⟨none, 0⟩⟩
      = (.ok (.s "w"),
         ⟨mupd (fun _ => none) (hash_request "http://h/p" none none none) (.s "w"),
          (fun _ => none), ⟨none, 0⟩⟩,
         [.cacheHit (hash_request "http://h/p" none none none)]) :=
  ⟨by decide,
   (c4_cache_roundtrip_amended cfgA orcA "GET" "http://h/p" none none none true
      none none
      ⟨mupd (fun _ => none) (hash_request "http://h/p" none none none) (.s "w"),
       (fun _ => none), ⟨none, 0⟩⟩
      (.s "w") (by decide)).1⟩

/-- C10: the fingerprint ignores the HTTP method and the headers, so a GET
whose 200 response was cached is served unchanged to a subsequent POST
with the same url, params and jsonBody (and no body) — the POST returns
the stored value, changes nothing, and emits only the cache-hit event (no
transport dispatch, no rate-limit stamp) — and symmetrically a cached POST
result is served to a subsequent GET. -/
theorem c10_method_headers_fingerprint (cfg : ScraperCfg) (orc orc2 : ScraperOracle)
    (url : String) (params : Option (List (String × PyVal)))
    (headers headers2 : Option Hdrs) (json : Bool)
    (retry_errors : Option (List ExcType)) (json_body : Option PyVal)
    (st : ScraperSt) (v : PyVal) (text : String) (jv : Option PyVal)
    (hpw : cfg.use_playwright = false)
    (htr0 : orc.transport 0 = .resp 200 text jv)
    (hjv : (if json = true then jv else some (.s text)) = some v)
    (hmiss : st.cache (hash_request url params none json_body) = none) :
    ((Scraper.get cfg orc url params headers json retry_errors json_body false st).1
        = .ok v ∧
     (Scraper.get cfg orc url params headers json retry_errors json_body false
        st).2.1.cache (hash_request url params none json_body) = some v ∧
     Scraper.post cfg orc2 url params headers2 none json retry_errors json_body false
         (Scraper.get cfg orc url params headers json retry_errors json_body false st).2.1
       = (.ok v,
          (Scraper.get cfg orc url params headers json retry_errors json_body false st).2.1,
          [.cacheHit (hash_request url params none json_body)])) ∧
    ((Scraper.post cfg orc url params headers none json retry_errors json_body false st).1
        = .ok v ∧
     (Scraper.post cfg orc url params headers none json retry_errors json_body false
        st).2.1.cache (hash_request url params none json_body) = some v ∧
     Scraper.get cfg orc2 url params headers2 json retry_errors json_body false
         (Scraper.post cfg orc url params headers none json retry_errors json_body false st).2.1
       = (.ok v,
          (Scraper.post cfg orc url params headers none json retry_errors json_body false st).2.1,
          [.cacheHit (hash_request url params none json_body)])) := by
  have hsg := requestMiss_success cfg orc "GET" url headers json retry_errors
    (hash_request url params none json_body) st v text jv hpw htr0 hjv
  have hsp := requestMiss_success cfg orc "POST" url headers json retry_errors
    (hash_request url params none json_body) st v text jv hpw htr0 hjv
  have hmg := request_miss cfg orc "GET" url params headers none json retry_errors
    json_body false st (Or.inl hmiss)
  have hmp := request_miss cfg orc "POST" url params headers none json retry_errors
    json_body false st (Or.inl hmiss)
  constructor
  · refine ⟨?_, ?_, ?_⟩
    · rw [Scraper.get, hmg, hsg.1]
    · rw [Scraper.get, hmg, hsg.2.1, mupd]
      simp
    · rw [Scraper.post]
      exact request_hit cfg orc2 "POST" url params headers2 none json retry_errors
        json_body _ v (by rw [Scraper.get, hmg, hsg.2.1, mupd]; simp)
  · refine ⟨?_, ?_, ?_⟩
    · rw [Scraper.post, hmp, hsp.1]
    · rw [Scraper.post, hmp, hsp.2.1, mupd]
      simp
    · rw [Scraper.get]
      exact request_hit cfg orc2 "GET" url params headers2 none json retry_errors
        json_body _ v (by rw [Scraper.post, hmp, hsp.2.1, mupd]; simp)

/-- Witness for `c10_method_headers_fingerprint`: a concrete GET stores
`"v"` and the following POST is served from the cache. -/
theorem c10_method_headers_fingerprint_witness :
    (Scraper.get cfgA orcA "http://h/p" none none true none none false stA).1
      = .ok (.s "v") ∧
    Scraper.post cfgA orcA "http://h/p" none none none true none none false
        (Scraper.get cfgA orcA "http://h/p" none none true none none false stA).2.1
      = (.ok (.s "v"),
         (Scraper.get cfgA orcA "http://h/p" none none true none none false stA).2.1,
         [.cacheHit (hash_request "http://h/p" none none none)]) :=
  ⟨(c10_method_headers_fingerprint cfgA orcA orcA "http://h/p" none none none true
      none none stA (.s "v") "t" (some (.s "v")) rfl rfl (by decide) rfl).1.1,
   (c10_method_headers_fingerprint cfgA orcA orcA "http://h/p" none none none true
      none none stA (.s "v") "t" (some (.s "v")) rfl rfl (by decide) rfl).1.2.2⟩

/-- C1 counterexample: with `no_cache=true` the cache STORE is not
bypassed.  Starting from an empty cache, a `no_cache=true` call whose
transport answers 200 stores the result into the response cache (line 354
stores unconditionally), contradicting the claim that both lookup and
store are bypassed. -/
theorem c1_no_cache_store_counterexample :
    stA.cache (hash_request "http://h/p" none none none) = none ∧
    (Scraper.request cfgA orcA "GET" "http://h/p" none none none true none none
        true stA).2.1.cache (hash_request "http://h/p" none none none)
      = some (.s "v") := by
  constructor
  · rfl
  · decide

/-- C1 (amended): `no_cache=true` bypasses the cache lookup only: the call
never serves from the cache (no cache-hit event), always re-dispatches to
the transport (the trace contains the first dispatch), but a successful
result obtained by the call IS still written into the response cache. -/
theorem c1_no_cache_amended (cfg : ScraperCfg) (orc : ScraperOracle)
    (method url : String) (params : Option (List (String × PyVal)))
    (headers : Option Hdrs) (data : Option PyVal) (json : Bool)
    (retry_errors : Option (List ExcType)) (json_body : Option PyVal)
    (st : ScraperSt) :
    (Scraper.request cfg orc method url params headers data json retry_errors
        json_body true st).2.2.countP Event.isCacheHit = 0 ∧
    (∃ pre h0 Δ,
      (Scraper.request cfg orc method url params headers data json retry_errors
          json_body true st).2.2
        = pre ++ Event.dispatch 0 method url h0 :: Δ) ∧
    (∀ (v : PyVal) (text : String) (jv : Option PyVal),
      cfg.use_playwright = false →
      orc.transport 0 = .resp 200 text jv →
      (if json = true then jv else some (.s text)) = some v →
      (Scraper.request cfg orc method url params headers data json retry_errors
          json_body true st).1 = .ok v ∧
      (Scraper.request cfg orc method url params headers data json retry_errors
          json_body true st).2.1.cache (hash_request url params data json_body)
        = some v) := by
  rw [request_miss cfg orc method url params headers data json retry_errors
    json_body true st (Or.inr rfl)]
  refine ⟨?_, ?_, ?_⟩
  · obtain ⟨⟨Δ, htr, hok⟩, -, -⟩ :=
      doReq_spec cfg orc method url
        (resolveHeaders cfg.default_headers cfg.spoof_headers headers st.spoof
          orc.headersNow orc.genHeaders orc.referer).1
        json retry_errors (hash_request url params data json_body)
        (ExponentialBackoff.init.max_backoffs + 1)
        ⟨st.cache,
         (if next_call cfg.limit st.last_calls (rlKey cfg.limit url) orc.now
              orc.rateDraw orc.rateJitter > orc.now then
            [Event.rateSleep (next_call cfg.limit st.last_calls (rlKey cfg.limit url)
              orc.now orc.rateDraw orc.rateJitter - orc.now)]
          else []) ++ [Event.stamp (rlKey cfg.limit url) orc.stampTime],
         0, 0, ExponentialBackoff.init⟩
    show (doReq cfg orc method url _ json retry_errors _ _ _).2.trace.countP
      Event.isCacheHit = 0
    rw [htr]
    simp only [List.countP_append]
    have h1 : ∀ e ∈ Δ, ¬(Event.isCacheHit e = true) := by
      intro e he
      simp [(eventOkFor_admin (hok e he)).1]
    rw [List.countP_eq_zero.mpr h1]
    split
    · simp [Event.isCacheHit, List.countP, List.countP.go]
    · simp [Event.isCacheHit, List.countP, List.countP.go]
  · obtain ⟨Δh, hh⟩ :=
      doReq_head cfg orc method url
        (resolveHeaders cfg.default_headers cfg.spoof_headers headers st.spoof
          orc.headersNow orc.genHeaders orc.referer).1
        json retry_errors (hash_request url params data json_body)
        ExponentialBackoff.init.max_backoffs
        ⟨st.cache,
         (if next_call cfg.limit st.last_calls (rlKey cfg.limit url) orc.now
              orc.rateDraw orc.rateJitter > orc.now then
            [Event.rateSleep (next_call cfg.limit st.last_calls (rlKey cfg.limit url)
              orc.now orc.rateDraw orc.rateJitter - orc.now)]
          else []) ++ [Event.stamp (rlKey cfg.limit url) orc.stampTime],
         0, 0, ExponentialBackoff.init⟩
    exact ⟨(if next_call cfg.limit st.last_calls (rlKey cfg.limit url) orc.now
              orc.rateDraw orc.rateJitter > orc.now then
            [Event.rateSleep (next_call cfg.limit st.last_calls (rlKey cfg.limit url)
              orc.now orc.rateDraw orc.rateJitter - orc.now)]
          else []) ++ [Event.stamp (rlKey cfg.limit url) orc.stampTime],
        (resolveHeaders cfg.default_headers cfg.spoof_headers headers st.spoof
          orc.headersNow orc.genHeaders orc.referer).1, Δh, hh⟩
  · intro v text jv hpw htr0 hjv
    have hs := requestMiss_success cfg orc method url headers json retry_errors
      (hash_request url params data json_body) st v text jv hpw htr0 hjv
    refine ⟨hs.1, ?_⟩
    rw [hs.2.1, mupd]
    simp

/-- Witness for `c1_no_cache_amended`: the concrete `no_cache=true` call
returns and stores the transport's value. -/
theorem c1_no_cache_amended_witness :
    cfgA.use_playwright = false ∧
    ((Scraper.request cfgA orcA "GET" "http://h/p" none none none true none none
        true stA).1 = .ok (.s "v") ∧
     (Scraper.request cfgA orcA "GET" "http://h/p" none none none true none none
        true stA).2.1.cache (hash_request "http://h/p" none none none)
       = some (.s "v")) :=
  ⟨rfl,
   (c1_no_cache_amended cfgA orcA "GET" "http://h/p" none none none true none
      none stA).2.2 (.s "v") "t" (some (.s "v")) rfl rfl (by decide)⟩

/-- C9: on any request that reaches dispatch (cache miss or bypass), the
rate limiter's last-call map is stamped exactly once at the resolved key —
the final map is the old map with that single update, every other key
unchanged — and the stamp sits in the trace immediately before the first
dispatch; the retries that follow (the events after the first dispatch)
contain no further stamp and no rate-limit sleep, i.e. retry re-dispatches
call the transport directly without acquiring a new slot. -/
theorem c9_rate_limit_stamp_once (cfg : ScraperCfg) (orc : ScraperOracle)
    (method url : String) (params : Option (List (String × PyVal)))
    (headers : Option Hdrs) (data : Option PyVal) (json : Bool)
    (retry_errors : Option (List ExcType)) (json_body : Option PyVal)
    (no_cache : Bool) (st : ScraperSt)
    (h : st.cache (hash_request url params data json_body) = none ∨ no_cache = true) :
    (Scraper.request cfg orc method url params headers data json retry_errors
        json_body no_cache st).2.1.last_calls
      = mupd st.last_calls (rlKey cfg.limit url) orc.stampTime ∧
    (∀ k, k ≠ rlKey cfg.limit url →
      (Scraper.request cfg orc method url params headers data json retry_errors
          json_body no_cache st).2.1.last_calls k = st.last_calls k) ∧
    (∃ pre h0 Δ,
      (Scraper.request cfg orc method url params headers data json retry_errors
          json_body no_cache st).2.2
        = pre ++ Event.stamp (rlKey cfg.limit url) orc.stampTime
            :: Event.dispatch 0 method url h0 :: Δ ∧
      pre.countP Event.isDispatch = 0 ∧
      pre.countP Event.isStamp = 0 ∧
      Δ.countP Event.isStamp = 0 ∧
      Δ.countP Event.isRateSleep = 0) := by
  rw [request_miss cfg orc method url params headers data json retry_errors
    json_body no_cache st h]
  refine ⟨rfl, ?_, ?_⟩
  · intro k hk
    show mupd st.last_calls (rlKey cfg.limit url) orc.stampTime k = st.last_calls k
    simp [mupd, hk]
  · obtain ⟨⟨Δf, htrf, hokf⟩, -, -⟩ :=
      doReq_spec cfg orc method url
        (resolveHeaders cfg.default_headers cfg.spoof_headers headers st.spoof
          orc.headersNow orc.genHeaders orc.referer).1
        json retry_errors (hash_request url params data json_body)
        (ExponentialBackoff.init.max_backoffs + 1)
        ⟨st.cache,
         (if next_call cfg.limit st.last_calls (rlKey cfg.limit url) orc.now
              orc.rateDraw orc.rateJitter > orc.now then
            [Event.rateSleep (next_call cfg.limit st.last_calls (rlKey cfg.limit url)
              orc.now orc.rateDraw orc.rateJitter - orc.now)]
          else []) ++ [Event.stamp (rlKey cfg.limit url) orc.stampTime],
         0, 0, ExponentialBackoff.init⟩
    obtain ⟨Δh, hh⟩ :=
      doReq_head cfg orc method url
        (resolveHeaders cfg.default_headers cfg.spoof_headers headers st.spoof
          orc.headersNow orc.genHeaders orc.referer).1
        json retry_errors (hash_request url params data json_body)
        ExponentialBackoff.init.max_backoffs
        ⟨st.cache,
         (if next_call cfg.limit st.last_calls (rlKey cfg.limit url) orc.now
              orc.rateDraw orc.rateJitter > orc.now then
            [Event.rateSleep (next_call cfg.limit st.last_calls (rlKey cfg.limit url)
              orc.now orc.rateDraw orc.rateJitter - orc.now)]
          else []) ++ [Event.stamp (rlKey cfg.limit url) orc.stampTime],
         0, 0, ExponentialBackoff.init⟩
    have hΔ : Δf = Event.dispatch 0 method url
        (resolveHeaders cfg.default_headers cfg.spoof_headers headers st.spoof
          orc.headersNow orc.genHeaders orc.referer).1 :: Δh :=
      List.append_cancel_left (htrf.symm.trans hh)
    refine ⟨(if next_call cfg.limit st.last_calls (rlKey cfg.limit url) orc.now
              orc.rateDraw orc.rateJitter > orc.now then
            [Event.rateSleep (next_call cfg.limit st.last_calls (rlKey cfg.limit url)
              orc.now orc.rateDraw orc.rateJitter - orc.now)]
          else []),
        (resolveHeaders cfg.default_headers cfg.spoof_headers headers st.spoof
          orc.headersNow orc.genHeaders orc.referer).1, Δh, ?_, ?_, ?_, ?_, ?_⟩
    · show (doReq cfg orc method url _ json retry_errors _ _ _).2.trace = _
      rw [hh]
      simp
    · split
      · simp [Event.isDispatch, List.countP, List.countP.go]
      · simp [List.countP, List.countP.go]
    · split
      · simp [Event.isStamp, List.countP, List.countP.go]
      · simp [List.countP, List.countP.go]
    · refine List.countP_eq_zero.mpr ?_
      intro e he
      have : e ∈ Δf := by
        rw [hΔ]
        exact List.mem_cons_of_mem _ he
      simp [(eventOkFor_admin (hokf e this)).2.1]
    · refine List.countP_eq_zero.mpr ?_
      intro e he
      have : e ∈ Δf := by
        rw [hΔ]
        exact List.mem_cons_of_mem _ he
      simp [(eventOkFor_admin (hokf e this)).2.2]

/-- Witness for `c9_rate_limit_stamp_once`: the concrete miss call stamps
the netloc key with the oracle's stamp time. -/
theorem c9_rate_limit_stamp_once_witness :
    (Scraper.request cfgA orcA "GET" "http://h/p" none none none true none none
        false stA).2.1.last_calls
      = mupd stA.last_calls (rlKey cfgA.limit "http://h/p") orcA.stampTime :=
  (c9_rate_limit_stamp_once cfgA orcA "GET" "http://h/p" none none none true
    none none false stA (Or.inl rfl)).1

/-- An oracle whose transport answers 200 with an empty text body and a
`None` JSON value. -/
def orcB : ScraperOracle :=
  ⟨(fun _ => .resp 200 "" none), (fun _ => .ok (.s "pw")),
   (fun _ => 0), 1, 0, 0, 0, 0, (fun _ => none), "r"⟩

/-- C2 counterexample: a 200 response whose body is EMPTY is not always
retried.  In text mode (`json=False`) the parsed value of an empty body is
the empty string, not `None`, so the code caches it and returns it with no
backoff — contradicting the claim that an empty successful body is treated
as retryable rather than cached or returned. -/
theorem c2_empty_body_counterexample :
    (Scraper.request cfgA orcB "GET" "http://h/p" none none none false none none
        false stA).1 = .ok (.s "") ∧
    (Scraper.request cfgA orcB "GET" "http://h/p" none none none false none none
        false stA).2.1.cache (hash_request "http://h/p" none none none)
      = some (.s "") ∧
    (Scraper.request cfgA orcB "GET" "http://h/p" none none none false none none
        false stA).2.2.countP Event.isBackoffSleep = 0 := by
  refine ⟨by decide, by decide, by decide⟩

/-- C2 (amended): a value is stored into the response cache only when the
transport returned a 200 whose parsed value (`res.json()` in json mode,
`res.text()` otherwise) is not `None`, and the stored value is the one
returned; the retryable "empty" case is precisely a `None` parsed value
(only possible in json mode — an empty text body is a value and is cached),
and such a dispatch invokes the backoff (sleeping `delay + jitter`) and
re-dispatches with the same method, URL and headers. -/
theorem c2_store_amended (cfg : ScraperCfg) (orc : ScraperOracle)
    (method url : String) (params : Option (List (String × PyVal)))
    (headers : Option Hdrs) (data : Option PyVal) (json : Bool)
    (retry_errors : Option (List ExcType)) (json_body : Option PyVal)
    (no_cache : Bool) (st : ScraperSt) :
    (∀ fp', fp' ≠ hash_request url params data json_body →
      (Scraper.request cfg orc method url params headers data json retry_errors
          json_body no_cache st).2.1.cache fp' = st.cache fp') ∧
    ((Scraper.request cfg orc method url params headers data json retry_errors
          json_body no_cache st).2.1.cache (hash_request url params data json_body)
        ≠ st.cache (hash_request url params data json_body) →
      ∃ v, (Scraper.request cfg orc method url params headers data json retry_errors
          json_body no_cache st).1 = .ok v ∧
        (Scraper.request cfg orc method url params headers data json retry_errors
            json_body no_cache st).2.1.cache (hash_request url params data json_body)
          = some v ∧
        ∃ n, okBody json (orc.transport n) v) ∧
    (∀ (hdrs : Hdrs) (fp text : String) (fuel : Nat) (rst : ReqSt),
      cfg.use_playwright = false →
      orc.transport rst.nDispatch = .resp 200 text none →
      json = true →
      rst.backoff.backoffs < rst.backoff.max_backoffs →
      ∃ Δ, (doReq cfg orc method url hdrs json retry_errors fp (fuel + 1 + 1) rst).2.trace
        = rst.trace ++ [Event.dispatch rst.nDispatch method url hdrs,
            Event.backoffSleep ((rst.backoff.backoff_seconds : Q)
              + orc.backoffJitter rst.nBackoff),
            Event.dispatch (rst.nDispatch + 1) method url hdrs] ++ Δ) := by
  have hmain : (∀ fp', fp' ≠ hash_request url params data json_body →
      (Scraper.request cfg orc method url params headers data json retry_errors
          json_body no_cache st).2.1.cache fp' = st.cache fp') ∧
    ((Scraper.request cfg orc method url params headers data json retry_errors
          json_body no_cache st).2.1.cache (hash_request url params data json_body)
        ≠ st.cache (hash_request url params data json_body) →
      ∃ v, (Scraper.request cfg orc method url params headers data json retry_errors
          json_body no_cache st).1 = .ok v ∧
        (Scraper.request cfg orc method url params headers data json retry_errors
            json_body no_cache st).2.1.cache (hash_request url params data json_body)
          = some v ∧
        ∃ n, okBody json (orc.transport n) v) := by
    rcases hc : st.cache (hash_request url params data json_body) with _ | v
    · rw [request_miss cfg orc method url params headers data json retry_errors
        json_body no_cache st (Or.inl hc)]
      have hq := requestMiss_cache cfg orc method url headers json retry_errors
        (hash_request url params data json_body) st
      rw [hc] at hq
      exact hq
    · cases no_cache with
      | false =>
        rw [request_hit cfg orc method url params headers data json retry_errors
          json_body st v hc]
        exact ⟨fun _ _ => rfl, fun hne => absurd hc hne⟩
      | true =>
        rw [request_miss cfg orc method url params headers data json retry_errors
          json_body true st (Or.inr rfl)]
        have hq := requestMiss_cache cfg orc method url headers json retry_errors
          (hash_request url params data json_body) st
        rw [hc] at hq
        exact hq
  refine ⟨hmain.1, hmain.2, ?_⟩
  intro hdrs fp text fuel rst hpw htr0 hj hbudget
  subst hj
  have heq : rst.backoff.backoff (orc.backoffJitter rst.nBackoff)
      (Reason.txt "Empty response")
      = .ok ({ rst.backoff with
                backoff_seconds := rst.backoff.backoff_seconds ^ rst.backoff.exponent,
                backoffs := rst.backoff.backoffs + 1 },
             (rst.backoff.backoff_seconds : Q) + orc.backoffJitter rst.nBackoff) := by
    unfold ExponentialBackoff.backoff
    rw [if_neg (by omega)]
  obtain ⟨m, hm⟩ : ∃ m, m = fuel + 1 := ⟨fuel + 1, rfl⟩
  rw [show fuel + 1 + 1 = m + 1 by omega]
  simp only [doReq, hpw, htr0]
  rw [heq, if_neg Bool.false_ne_true, if_neg (by simp : ¬((200 : Nat) ≠ 200)),
    if_pos trivial]
  try dsimp only
  obtain ⟨Δw, hw⟩ := exceptWrap_trace cfg orc method url hdrs true retry_errors fp
    { rst with nDispatch := rst.nDispatch + 1, nBackoff := rst.nBackoff + 1,
               backoff := { rst.backoff with
                 backoff_seconds := rst.backoff.backoff_seconds ^ rst.backoff.exponent,
                 backoffs := rst.backoff.backoffs + 1 },
               trace := rst.trace ++ [Event.dispatch rst.nDispatch method url hdrs]
                 ++ [Event.backoffSleep ((rst.backoff.backoff_seconds : Q)
                      + orc.backoffJitter rst.nBackoff)] }
    m
  subst hm
  obtain ⟨Δh, hh⟩ := doReq_head cfg orc method url hdrs true retry_errors fp fuel
    { rst with nDispatch := rst.nDispatch + 1, nBackoff := rst.nBackoff + 1,
               backoff := { rst.backoff with
                 backoff_seconds := rst.backoff.backoff_seconds ^ rst.backoff.exponent,
                 backoffs := rst.backoff.backoffs + 1 },
               trace := rst.trace ++ [Event.dispatch rst.nDispatch method url hdrs]
                 ++ [Event.backoffSleep ((rst.backoff.backoff_seconds : Q)
                      + orc.backoffJitter rst.nBackoff)] }
  refine ⟨Δh ++ Δw, hw.trans ?_⟩
  rw [hh]
  simp

/-- Witness for `c2_store_amended`: the concrete stored value comes from
the 200 response, and a concrete empty-json 200 backs off and
re-dispatches. -/
theorem c2_store_amended_witness :
    (∃ v, (Scraper.request cfgA orcA "GET" "http://h/p" none none none true none
        none false stA).1 = .ok v ∧
      (Scraper.request cfgA orcA "GET" "http://h/p" none none none true none
          none false stA).2.1.cache (hash_request "http://h/p" none none none)
        = some v ∧
      ∃ n, okBody true (orcA.transport n) v) ∧
    (∃ Δ, (doReq cfgA orcB "GET" "http://h/p" (fun _ => none) true none "f"
        (2 + 1 + 1) ⟨(fun _ => none), [], 0, 0, ExponentialBackoff.init⟩).2.trace
      = ([] : List Event) ++ [Event.dispatch 0 "GET" "http://h/p" (fun _ => none),
          Event.backoffSleep (((ExponentialBackoff.init.backoff_seconds : Q))
            + orcB.backoffJitter 0),
          Event.dispatch (0 + 1) "GET" "http://h/p" (fun _ => none)] ++ Δ) :=
  ⟨(c2_store_amended cfgA orcA "GET" "http://h/p" none none none true none none
      false stA).2.1 (by decide),
   (c2_store_amended cfgA orcB "GET" "http://h/p" none none none true none none
      false stA).2.2 (fun _ => none) "f" "" 2
      ⟨(fun _ => none), [], 0, 0, ExponentialBackoff.init⟩ rfl rfl rfl (by decide)⟩

/-- A configuration whose immediate-stop set is `[200]`. -/
def cfgC : ScraperCfg :=
  ⟨false, [200], (fun _ => none), ⟨1, .second, false, none, none, 1⟩, false⟩

/-- A configuration whose immediate-stop set is `[403]`. -/
def cfgD : ScraperCfg :=
  ⟨false, [403], (fun _ => none), ⟨1, .second, false, none, none, 1⟩, false⟩

/-- An oracle whose transport always answers 403. -/
def orcD : ScraperOracle :=
  ⟨(fun _ => .resp 403 "denied" none), (fun _ => .ok (.s "pw")),
   (fun _ => 0), 1, 0, 0, 0, 0, (fun _ => none), "r"⟩

/-- C6 counterexample: the claim fails in two ways.  (1) The stop-set test
sits inside the status != 200 branch, so a 200 response whose status is in
the immediate-stop set does NOT abort — the call succeeds normally.
(2) A caller that lists `ImmediatelyStopStatusError` among its retryable
errors gets backoff sleeps (three of them, to exhaustion) for a stop
status, so a stop status can trigger backoff sleeps. -/
theorem c6_immediate_stop_counterexample :
    ((200 : Nat) ∈ cfgC.immediately_stop_statuses ∧
     (Scraper.request cfgC orcA "GET" "http://h/p" none none none true none none
        false stA).1 = .ok (.s "v")) ∧
    ((403 : Nat) ∈ cfgD.immediately_stop_statuses ∧
     (Scraper.request cfgD orcD "GET" "http://h/p" none none none true
        (some [.immediatelyStopStatus]) none false stA).2.2.countP
          Event.isBackoffSleep = 3) := by
  refine ⟨⟨by decide, by decide⟩, by decide, by decide⟩

/-- C6 (amended): a dispatch whose status is NOT 200 and lies in the
caller-specified immediate-stop set aborts the chain at once with the
distinct terminal `ImmediatelyStopStatusError` — provided the caller has
not listed that very error among its retryable errors — with no backoff
sleep and no re-dispatch: the frame ends exactly after the single dispatch
event, and the signal differs from both the exhaustion and the transport
errors. -/
theorem c6_immediate_stop_amended (cfg : ScraperCfg) (orc : ScraperOracle)
    (method url : String) (hdrs : Hdrs) (json : Bool)
    (retry_errors : Option (List ExcType)) (req_hash : String) (fuel : Nat)
    (st : ReqSt) (status : Nat) (text : String) (jv : Option PyVal)
    (hpw : cfg.use_playwright = false)
    (htr0 : orc.transport st.nDispatch = .resp status text jv)
    (hstat : status ≠ 200)
    (hstop : status ∈ cfg.immediately_stop_statuses)
    (hretry : ∀ l, retry_errors = some l → ExcType.immediatelyStopStatus ∉ l) :
    doReq cfg orc method url hdrs json retry_errors req_hash (fuel + 1) st
      = (.err .immediatelyStopStatus,
         { st with nDispatch := st.nDispatch + 1,
                   trace := st.trace ++ [.dispatch st.nDispatch method url hdrs] }) ∧
    (∀ r, Exc.immediatelyStopStatus ≠ Exc.responseNotOk r) ∧
    (∀ k, Exc.immediatelyStopStatus ≠ Exc.transportExc k) := by
  have hr : isRetryable retry_errors Exc.immediatelyStopStatus = false := by
    rcases retry_errors with _ | l
    · rfl
    · have h := hretry l rfl
      simp [isRetryable, Exc.type, h]
  refine ⟨?_, fun r => by simp, fun k => by simp⟩
  simp only [doReq, hpw, htr0]
  rw [if_neg Bool.false_ne_true, if_pos hstat, if_pos hstop]
  try dsimp only
  rw [hr, if_neg Bool.false_ne_true]

/-- Witness for `c6_immediate_stop_amended`: the concrete 403 dispatch
against the `[403]` stop set ends the chain immediately. -/
theorem c6_immediate_stop_amended_witness :
    doReq cfgD orcD "GET" "http://h/p" (fun _ => none) true none "f" (3 + 1)
        ⟨(fun _ => none), [], 0, 0, ExponentialBackoff.init⟩
      = (.err .immediatelyStopStatus,
         ⟨(fun _ => none),
          ([] : List Event) ++ [Event.dispatch 0 "GET" "http://h/p" (fun _ => none)],
          0 + 1, 0, ExponentialBackoff.init⟩) :=
  (c6_immediate_stop_amended cfgD orcD "GET" "http://h/p" (fun _ => none) true
    none "f" 3 ⟨(fun _ => none), [], 0, 0, ExponentialBackoff.init⟩ 403 "denied"
    none rfl rfl (by decide) (by decide) (fun l h => nomatch h)).1

/-- C3 counterexample: when identity spoofing is disabled and explicit
per-call headers are supplied, the defaults are NOT merged underneath —
the explicit headers are used as-is (the `elif self.__spoof_headers`
branch is skipped), so a default `User-Agent` is lost, contradicting the
claim that the merge over defaults happens whether or not spoofing is
enabled. -/
theorem c3_header_merge_counterexample :
    ((fun k => if k = "User-Agent" then some "UA" else none) : Hdrs) "User-Agent"
      = some "UA" ∧
    ((fun k => if k = "X" then some "y" else none) : Hdrs) "User-Agent" = none ∧
    (resolveHeaders (fun k => if k = "User-Agent" then some "UA" else none) false
        (some (fun k => if k = "X" then some "y" else none))
        ⟨none, 0⟩ 0 (fun _ => none) "r").1 "User-Agent" = none := by
  exact ⟨rfl, rfl, rfl⟩

/-- C3 (amended): with explicit per-call headers, the resolution of lines
309-317 merges over the defaults only when spoofing is enabled: spoofed
values win over explicit values, which win over defaults; with spoofing
disabled the explicit headers are used as-is (no merge with defaults).
The resolved headers are what every dispatch of the call carries. -/
theorem c3_header_resolution_amended (default_headers explicit : Hdrs)
    (sst : SpoofSt) (now : Q) (gen : Hdrs) (referer : String) :
    (resolveHeaders default_headers false (some explicit) sst now gen referer).1
      = explicit ∧
    (resolveHeaders default_headers false (some explicit) sst now gen referer).2
      = sst ∧
    (∀ k, (resolveHeaders default_headers true (some explicit) sst now gen referer).1 k
      = ((get_headers sst now gen referer).1 k).orElse
          (fun _ => (explicit k).orElse (fun _ => default_headers k))) ∧
    (∀ (cfg : ScraperCfg) (orc : ScraperOracle) (method url : String)
        (params : Option (List (String × PyVal))) (data : Option PyVal)
        (json : Bool) (retry_errors : Option (List ExcType))
        (json_body : Option PyVal) (st : ScraperSt),
      ∃ pre Δ,
        (Scraper.request cfg orc method url params (some explicit) data json
            retry_errors json_body true st).2.2
          = pre ++ Event.dispatch 0 method url
              (resolveHeaders cfg.default_headers cfg.spoof_headers (some explicit)
                st.spoof orc.headersNow orc.genHeaders orc.referer).1 :: Δ) := by
  refine ⟨rfl, rfl, fun k => rfl, ?_⟩
  intro cfg orc method url params data json retry_errors json_body st
  rw [request_miss cfg orc method url params (some explicit) data json
    retry_errors json_body true st (Or.inr rfl)]
  obtain ⟨Δh, hh⟩ :=
    doReq_head cfg orc method url
      (resolveHeaders cfg.default_headers cfg.spoof_headers (some explicit)
        st.spoof orc.headersNow orc.genHeaders orc.referer).1
      json retry_errors (hash_request url params data json_body)
      ExponentialBackoff.init.max_backoffs
      ⟨st.cache,
       (if next_call cfg.limit st.last_calls (rlKey cfg.limit url) orc.now
            orc.rateDraw orc.rateJitter > orc.now then
          [Event.rateSleep (next_call cfg.limit st.last_calls (rlKey cfg.limit url)
            orc.now orc.rateDraw orc.rateJitter - orc.now)]
        else []) ++ [Event.stamp (rlKey cfg.limit url) orc.stampTime],
       0, 0, ExponentialBackoff.init⟩
  exact ⟨(if next_call cfg.limit st.last_calls (rlKey cfg.limit url) orc.now
            orc.rateDraw orc.rateJitter > orc.now then
          [Event.rateSleep (next_call cfg.limit st.last_calls (rlKey cfg.limit url)
            orc.now orc.rateDraw orc.rateJitter - orc.now)]
        else []) ++ [Event.stamp (rlKey cfg.limit url) orc.stampTime], Δh, hh⟩

end SimpleScraper
